import Mathlib

/-!
Verification model of the forecastframe repository (feature engineering and
interpretation modules). Python dataframes are embedded as lists of rows of
cell values; each transform is a function on an explicit frame state, and
Python exceptions are modelled by an Except whose error also carries the
state at raise time (so mutations made before a raise stay observable).
Numerically heavy pandas kernels that the source delegates wholesale to
external libraries are passed in as explicit oracle parameters.
-/

set_option linter.unusedVariables false

namespace FF

/-- Values held in a dataframe cell: rational numbers (modelling Python ints
and floats), strings, booleans, and null (NaN/NaT/None). -/
inductive Val where
  | num (q : Rat)
  | str (s : String)
  | bool (b : Bool)
  | null
deriving DecidableEq, Repr

/-- Whether a cell is null (NaN/NaT/None). -/
def Val.isNull : Val → Bool
  | Val.null => true
  | _ => false

/-- The pandas comparison series > q: NaN (and non-numeric cells) compare false. -/
def Val.gtNum : Val → Rat → Bool
  | Val.num a, q => q < a
  | _, _ => false

/-- Series.fillna on one cell. -/
def Val.fillna (v : Val) (d : Val) : Val :=
  if v.isNull then d else v

/-- Cell subtraction, used for datetime differences measured in days. -/
def Val.subNum : Val → Val → Val
  | Val.num a, Val.num b => Val.num (a - b)
  | _, _ => Val.null

/-- Cell plus an integer number of days (pandas shift with freq of one day). -/
def Val.addDays : Val → Int → Val
  | Val.num a, i => Val.num (a + i)
  | _, _ => Val.null

/-- Elementwise division as used by the momentum/percentage blocks; null
propagates (division by zero is also sent to null in this model). -/
def Val.divNum : Val → Val → Val
  | Val.num a, Val.num b => if b = 0 then Val.null else Val.num (a / b)
  | _, _ => Val.null

/-- Numeric payload of a cell, when present. -/
def Val.toNum : Val → Option Rat
  | Val.num q => some q
  | _ => none

/-- A dataframe: a flat list of column names and rows of cells aligned with
those names positionally. The datetime index of the source frames is kept as
an ordinary column, so reset_index and set_index are identities here. -/
structure DF where
  cols : List String
  rows : List (List Val)
deriving DecidableEq, Repr

/-- Index of a column name in a column list. -/
def colIdx (cols : List String) (c : String) : Option Nat :=
  cols.findIdx? (fun x => x == c)

/-- Cell of a row under a given column name (null when the column is absent). -/
def cellAt (cols : List String) (c : String) (row : List Val) : Val :=
  match colIdx cols c with
  | some i => row.getD i Val.null
  | none => Val.null

/-- Tuple of key-column values of a row. -/
def keyOf (cols : List String) (keys : List String) (row : List Val) : List Val :=
  keys.map (fun k => cellAt cols k row)

/-- One whole column of a dataframe. -/
def DF.getCol (df : DF) (c : String) : List Val :=
  df.rows.map (fun r => cellAt df.cols c r)

/-- Column assignment data[c] = vals: overwrite in place when the name exists,
append a new column otherwise (values aligned positionally). -/
def DF.setCol (df : DF) (c : String) (vals : List Val) : DF :=
  match colIdx df.cols c with
  | some i =>
      { cols := df.cols,
        rows := (df.rows.enum).map (fun p => p.2.set i (vals.getD p.1 Val.null)) }
  | none =>
      { cols := df.cols ++ [c],
        rows := (df.rows.enum).map (fun p => p.2 ++ [vals.getD p.1 Val.null]) }

/-- Row filter data[mask]. -/
def DF.filterRows (df : DF) (p : List Val → Bool) : DF :=
  { cols := df.cols, rows := df.rows.filter p }

/-- Drop a column by name (no-op when absent). -/
def DF.dropCol (df : DF) (c : String) : DF :=
  match colIdx df.cols c with
  | some i => { cols := df.cols.eraseIdx i, rows := df.rows.map (fun r => r.eraseIdx i) }
  | none => df

/-- First-occurrence deduplication of key tuples, giving the group keys of a
groupby in order of appearance (pandas sorts group keys, but no modelled
result depends on the order of the groups). -/
def dedupKeys : List (List Val) → List (List Val)
  | [] => []
  | k :: ks => if k ∈ dedupKeys ks then dedupKeys ks else k :: dedupKeys ks

/-- Group keys of a dataframe under the given key columns; when dropna is
true, keys containing a null are dropped (the pandas groupby default). -/
def groupKeys (df : DF) (keys : List String) (dropna : Bool) : List (List Val) :=
  let raw := df.rows.map (fun r => keyOf df.cols keys r)
  let raw := if dropna then raw.filter (fun k => !(k.any Val.isNull)) else raw
  dedupKeys raw

/-- Rows of a dataframe belonging to one group key, in frame order. -/
def rowsOfKey (df : DF) (keys : List String) (k : List Val) : List (List Val) :=
  df.rows.filter (fun r => keyOf df.cols keys r == k)

/-- Minimum of the non-null numeric values of a list of cells (pandas min with
skipna; null when no numeric observation exists). -/
def minVal (vs : List Val) : Val :=
  match vs.filterMap Val.toNum with
  | [] => Val.null
  | q :: qs => Val.num (qs.foldl min q)

/-- The groupby(keys)[c].min().reset_index().rename(c -> newName) pattern of
calc_days_since_release: one row per (non-null) group key, holding the key
and the minimum of column c over the group. -/
def groupMinDF (df : DF) (keys : List String) (c : String) (newName : String) : DF :=
  { cols := keys ++ [newName],
    rows := (groupKeys df keys true).map (fun k =>
      k ++ [minVal ((rowsOfKey df keys k).map (fun r => cellAt df.cols c r))]) }

/-- Values of a row under a chosen list of column names. -/
def restrictRow (cols : List String) (row : List Val) (wanted : List String) : List Val :=
  wanted.map (fun c => cellAt cols c row)

/-- Inner merge on same-named key columns (pandas merge with on=keys,
how=inner): result columns are the left columns followed by the non-key right
columns; row order follows the left frame. -/
def DF.mergeOn (l r : DF) (keys : List String) : DF :=
  let rRest := r.cols.filter (fun c => !(keys.contains c))
  { cols := l.cols ++ rRest,
    rows := l.rows.flatMap (fun lr =>
      ((r.rows.filter (fun rr => keyOf r.cols keys rr == keyOf l.cols keys lr)).map
        (fun rr => lr ++ restrictRow r.cols rr rRest))) }

/-- Inner merge with distinct left and right key names (pandas merge with
left_on/right_on): both frames' columns, key columns included, survive. -/
def DF.mergeLR (l r : DF) (lkeys rkeys : List String) : DF :=
  { cols := l.cols ++ r.cols,
    rows := l.rows.flatMap (fun lr =>
      ((r.rows.filter (fun rr => keyOf r.cols rkeys rr == keyOf l.cols lkeys lr)).map
        (fun rr => lr ++ rr))) }

/-- Python exceptions surfaced by the modelled code. -/
inductive PyErr where
  | valueError (msg : String)
  | assertionError (msg : String)
  | typeError (msg : String)
deriving DecidableEq, Repr

/-- The groupers dictionary taken by several transforms. -/
structure Groupers where
  name : String
  columns : List String
  operation : String
deriving DecidableEq, Repr

/-- One entry of the replay bookkeeping lists: the function itself together
with the keyword values the source records for later re-application. -/
inductive ReplayEntry where
  | join_demographics (year : Int) (categories : List String) (level : String) (joiner : String)
  | calc_days_since_release (ignore_leading_zeroes : Bool)
  | calc_datetime_features (datetime_list : List String)
  | lag_features (features : List String) (lags : List Int)
  | calc_statistical_features (features : List String) (windows : List Int)
      (aggregations : List String) (lag : Int) (groupers : Option Groupers)
      (min_periods : Int) (momentums : Bool) (percentages : Bool)
  | calc_ewma (features : List String) (windows : List Int) (lag : Int)
      (groupers : Option Groupers) (min_periods : Option Int) (crossovers : Bool)
  | calc_percent_change (feature : Option String) (lag : Int) (groupers : Option Groupers)
  | calc_percent_relative_to_threshold (features : List String) (windows : List Int)
      (lag : Int) (groupers : Option Groupers) (min_periods : Int)
      (threshold : Int) (operator : String)
  | calc_prophet_predictions (args : List Val) (kwargs : List (String × Val))
deriving DecidableEq, Repr

/-- The forecastframe object state: the sample frame, one further data
attribute standing for any non-sample attribute the caller may name, the
schema fields, and the two replay lists. -/
structure FFrame where
  sample : DF
  data : DF
  hierarchy : List String
  datetime_column : String
  target : String
  function_list : List ReplayEntry
  ensemble_list : List ReplayEntry
deriving DecidableEq, Repr

/-- getattr(self, attribute) restricted to the two modelled data slots: the
string "sample" selects the sample frame, any other attribute the data slot. -/
def getAttr (f : FFrame) (a : String) : DF :=
  if a = "sample" then f.sample else f.data

/-- setattr(self, attribute, df) on the two modelled data slots. -/
def setAttr (f : FFrame) (a : String) (d : DF) : FFrame :=
  if a = "sample" then { f with sample := d } else { f with data := d }

/-- Result of one modelled transform call: on success the new state, on an
exception the error together with the state at raise time. -/
abbrev PyResult := Except (PyErr × FFrame) FFrame

/-- State after a call, whether it returned or raised. -/
def outState (r : PyResult) : FFrame :=
  match r with
  | Except.ok f => f
  | Except.error (_, f) => f

/-- Whether a result is an AssertionError. -/
def isAssertionError (r : PyResult) : Bool :=
  match r with
  | Except.error (PyErr.assertionError _, _) => true
  | _ => false

/-- Numeric view of a cell as pandas arithmetic sees it: booleans count as
one and zero, null and strings as missing. -/
def Val.asNum : Val → Option Rat
  | Val.num q => some q
  | Val.bool b => some (if b then 1 else 0)
  | _ => none

/-! ### Shared pandas kernels -/

/-- Positional Series.shift(lag) inside one group: values move down by lag
positions, nulls filling the gap; a negative lag moves them up. -/
def shiftList (lag : Int) (vs : List Val) : List Val :=
  if 0 ≤ lag then
    (List.replicate lag.toNat Val.null ++ vs).take vs.length
  else
    vs.drop (-lag).toNat ++ List.replicate (min (-lag).toNat vs.length) Val.null

/-- Time-based rolling aggregation with a right-closed window of the given
number of days and a minimum observation count, applied to a column inside
one group whose dates are monotone (the apply(shift.rolling(windowD).agg)
pattern); rows whose window holds fewer observations than min_periods give
null. -/
def rollingTimeAgg (window : Int) (minp : Int) (kernel : List Rat → Rat)
    (dates : List Val) (vs : List Val) : List Val :=
  (List.range vs.length).map (fun k =>
    match dates.getD k Val.null with
    | Val.num d =>
        let obs := (List.range (k + 1)).filterMap (fun j =>
          match dates.getD j Val.null, (vs.getD j Val.null).asNum with
          | Val.num dj, some x =>
              if d - (window : Rat) < dj ∧ dj ≤ d then some x else none
          | _, _ => none)
        if minp ≤ (obs.length : Int) then Val.num (kernel obs) else Val.null
    | _ => Val.null)

/-- The exponentially weighted moving mean with span-based weighting (pandas
ewm(span=..., min_periods=...).agg of mean with the default adjust and
ignore_na settings): at each position, the weighted mean of the non-null
observations so far, null until min_periods observations have been seen. -/
def ewmMeanCol (span : Int) (minp : Int) (vs : List Val) : List Val :=
  let alpha : Rat := 2 / ((span : Rat) + 1)
  let w : Rat := 1 - alpha
  (List.range vs.length).map (fun k =>
    let obs := (List.range (k + 1)).filterMap (fun j =>
      match (vs.getD j Val.null).asNum with
      | some x => some (w ^ (k - j) * x, w ^ (k - j))
      | none => none)
    if 1 ≤ obs.length ∧ minp ≤ (obs.length : Int) then
      Val.num ((obs.map Prod.fst).sum / (obs.map Prod.snd).sum)
    else Val.null)

/-! ### Column naming (feature_engineering._get_transformed_column_names) -/

/-- The single generated name the source builds for one feature: the feature,
an optional grouper tag, the designator, the rolling window and an optional
lag tag (grouper_name is Python-falsy when None or empty). -/
def transformedName (window : Int) (lag : Int) (grouper_name : Option String)
    (designator : String) (feature : String) : String :=
  let lag_str := if lag != 0 then "_lag" ++ toString lag else ""
  let grouper_str :=
    match grouper_name with
    | some g => if g = "" then "" else "_" ++ g
    | none => ""
  feature ++ grouper_str ++ designator ++ "_roll" ++ toString window ++ lag_str

/-- List branch (to_dict=False) of _get_transformed_column_names. -/
def _get_transformed_column_names (features : List String) (window : Int) (lag : Int)
    (grouper_name : Option String) (designator : String) : List String :=
  features.map (transformedName window lag grouper_name designator)

/-- Dedup of dict-comprehension keys: each feature once, first occurrence. -/
def dedupStr : List String → List String
  | [] => []
  | s :: ss => if s ∈ dedupStr ss then dedupStr ss else s :: dedupStr ss

/-- Dict branch (to_dict=True) of _get_transformed_column_names, as an
association list in key order. -/
def _get_transformed_column_names_dict (features : List String) (window : Int) (lag : Int)
    (grouper_name : Option String) (designator : String) : List (String × String) :=
  (dedupStr features).map (fun ft => (ft, transformedName window lag grouper_name designator ft))

/-! ### interpretation error metrics (interpret._calc_MAPE / _calc_MAPA) -/

/-- Mean of a list of rationals (sum over length; numpy mean). -/
def meanRat (xs : List Rat) : Rat :=
  xs.sum / xs.length

/-- Value computed by the body of _calc_MAPE: the mean absolute percent error
of two arrays, elementwise. -/
def _calc_MAPE (actuals predictions : List Rat) : Rat :=
  meanRat ((actuals.zip predictions).map (fun p => |(p.1 - p.2) / p.1|))

/-- Parameter names of _calc_MAPE. -/
def MAPE_params : List String := ["actuals", "predictions"]

/-- Keyword names _calc_MAPA passes in its call to _calc_MAPE. -/
def MAPA_call_kwargs : List String := ["actuals", "predictions", "weights"]

/-- Python keyword binding: a call raises TypeError as soon as some keyword is
not among the callee's parameter names. -/
def bindKwargs (params kwargs : List String) : Except PyErr Unit :=
  if kwargs.all (fun k => params.contains k) then Except.ok ()
  else Except.error (PyErr.typeError ("_calc_MAPE() got an unexpected keyword argument"))

/-- The _calc_MAPA body: forwards actuals, predictions and weights by keyword
to _calc_MAPE and, were that call to bind, would return 1 - MAPE. -/
def _calc_MAPA (actuals predictions : List Rat) (weights : Option (List Rat)) :
    Except PyErr Rat :=
  match bindKwargs MAPE_params MAPA_call_kwargs with
  | Except.error e => Except.error e
  | Except.ok _ => Except.ok (1 - _calc_MAPE actuals predictions)

/-! ### SHAP summary (interpret.get_sorted_shap_values) -/

/-- Per-column means of the absolute SHAP values (np.abs(shap_values).mean(0))
for a matrix given as a list of rows, over ncols columns. -/
def meanAbsShap (ncols : Nat) (shap_values : List (List Rat)) : List Rat :=
  (List.range ncols).map (fun j =>
    meanRat (shap_values.map (fun row => |row.getD j 0|)))

/-- Deterministic model of np.argsort: the indices of the list sorted
ascending by value. -/
def argsort (xs : List Rat) : List Nat :=
  List.insertionSort (fun i j => xs.getD i 0 ≤ xs.getD j 0) (List.range xs.length)

/-- The body of get_sorted_shap_values: the feature names indexed by the
reversed argsort of the absolute column means, the values indexed by the
reversed argsort of the column means, zipped into the two-column table. -/
def get_sorted_shap_values (cols : List String) (shap_values : List (List Rat)) :
    List (String × Rat) :=
  let mean_shap_values := meanAbsShap cols.length shap_values
  let feature_list :=
    ((argsort (mean_shap_values.map (fun q => |q|))).map (fun j => cols.getD j "")).reverse
  let feature_values :=
    ((argsort mean_shap_values).map (fun j => mean_shap_values.getD j 0)).reverse
  feature_list.zip feature_values

/-! ### Spec-modelled utilities (the utilities module is not among the
provided sources; these helpers are modelled from the spec's description of
the bookkeeping and column conventions) -/

/-- Modelled from the spec: utilities._join_new_columns is absent from the
sources. Per the spec, feature functions add the generated columns onto the
table held in the attribute; here each base row's key (grouping columns plus
the datetime index) is matched against the generated frame and one column is
assigned per generated name (overwriting on a name collision, as column
assignment does). -/
def joinNewColumns (base : DF) (keyCols : List String) (calcs : DF)
    (newNames : List String) : DF :=
  newNames.foldl (fun acc name =>
    DF.setCol acc name (base.rows.map (fun r =>
      match calcs.rows.find? (fun cr =>
          keyOf calcs.cols keyCols cr == keyOf base.cols keyCols r) with
      | some cr => cellAt calcs.cols name cr
      | none => Val.null))) base

/-- Modelled from the spec: utilities._assert_features_in_list is absent from
the sources; it raises an AssertionError when some requested feature is not
among the supported ones. -/
def assert_features_in_list (requested supported : List String) (msg : String) :
    Except PyErr Unit :=
  if requested.all (fun ft => supported.contains ft) then Except.ok ()
  else Except.error (PyErr.assertionError msg)

/-- Modelled from the spec: utilities._split_pairwise is absent from the
sources; it pairs successively windowed EWMA frames for the crossover
computation. -/
def splitPairwise (l : List DF) : List (DF × DF) :=
  l.zip (l.drop 1)

/-- Modelled from the spec: utilities._find_number is absent from the
sources; it extracts the digits following the given marker in a column name
(here, the rolling-window identifier). -/
def findNumber (s : String) (marker : String) : String :=
  ((s.splitOn marker).getD 1 "").takeWhile Char.isDigit

/-- Whether the pattern occurs inside the string. -/
def containsSubstr (s pat : String) : Bool :=
  (s.splitOn pat).length != 1

/-! ### feature_engineering transforms -/

/-- Lines 7-41 (join_demographics). The external
easy_demographics.get_demographics result is the demographic_data oracle
parameter; the merge keeps both key columns (left_on and right_on differ),
and reset_index and set_index are identities in this representation. -/
def join_demographics (f : FFrame) (joiner : String) (year : Int)
    (categories : List String) (level : String) (attrib : String)
    (demographic_data : DF) : PyResult :=
  let f := if attrib = "sample" then
      { f with function_list := f.function_list ++
          [ReplayEntry.join_demographics year categories level joiner] }
    else f
  let data := getAttr f attrib
  let data := DF.mergeLR data demographic_data [joiner] [level]
  Except.ok (setAttr f attrib data)

/-- Lines 44-96 (calc_days_since_release): when ignore_leading_zeroes is set,
the first-purchase dates are computed only over rows with positive target,
and the subsequent inner merge on the hierarchy keeps only rows of groups
that appear there; the day difference is appended and the helper column
dropped. -/
def calc_days_since_release (f : FFrame) (ignore_leading_zeroes : Bool)
    (attrib : String) : PyResult :=
  let f := if attrib = "sample" then
      { f with function_list := f.function_list ++
          [ReplayEntry.calc_days_since_release ignore_leading_zeroes] }
    else f
  let data0 := getAttr f attrib
  let data := if ignore_leading_zeroes then
      data0.filterRows (fun r => (cellAt data0.cols f.target r).gtNum 0)
    else data0
  let earliest := groupMinDF data f.hierarchy f.datetime_column ("first_purchase_date")
  let merged := DF.mergeOn (getAttr f attrib) earliest f.hierarchy
  let filled := merged.setCol ("first_purchase_date")
      (merged.rows.map (fun r =>
        (cellAt merged.cols ("first_purchase_date") r).fillna
          (cellAt merged.cols f.datetime_column r)))
  let withDays := filled.setCol ("days_since_release")
      (filled.rows.map (fun r =>
        (cellAt filled.cols f.datetime_column r).subNum
          (cellAt filled.cols ("first_purchase_date") r)))
  let final := withDays.dropCol ("first_purchase_date")
  Except.ok (setAttr f attrib final)

/-- The supported keys of datetime_ops (lines 147-157). -/
def datetime_ops_keys : List String :=
  ["day", "day_of_week", "weekend_flag", "week", "month", "year", "quarter",
   "month_year", "quarter_year"]

/-- Lines 99-166 (calc_datetime_features). The pandas datetime accessors
behind datetime_ops are external kernels, supplied as the dtOp oracle from
feature name and index cell to feature cell; the replay entry is appended
before the feature-name assertion runs. -/
def calc_datetime_features (f : FFrame) (datetime_list : List String)
    (attrib : String) (dtOp : String → Val → Val) : PyResult :=
  let f := if attrib = "sample" then
      { f with function_list := f.function_list ++
          [ReplayEntry.calc_datetime_features datetime_list] }
    else f
  let data := getAttr f attrib
  match assert_features_in_list datetime_list datetime_ops_keys
      ("Didn't recognize the following feature requests") with
  | Except.error e => Except.error (e, f)
  | Except.ok _ =>
      let final := datetime_list.foldl (fun acc ft =>
        acc.setCol ft (acc.rows.map (fun r =>
          dtOp ft (cellAt acc.cols f.datetime_column r)))) data
      Except.ok (setAttr f attrib final)

/-- One iteration of the lag_features loop (lines 200-213): the feature
columns of the pre-loop frame, re-dated lag days later within each hierarchy
group (shift with a daily freq), renamed feature_lagN and joined back onto
the attribute frame. -/
def lagStep (hierarchy : List String) (dtCol : String) (features : List String)
    (attrib : String) (data0 : DF) (st : FFrame) (lag : Int) : FFrame :=
  let newNames := features.map (fun ft => ft ++ "_lag" ++ toString lag)
  let calcs : DF :=
    { cols := hierarchy ++ [dtCol] ++ newNames,
      rows := data0.rows.map (fun r =>
        keyOf data0.cols hierarchy r
          ++ [(cellAt data0.cols dtCol r).addDays lag]
          ++ features.map (fun ft => cellAt data0.cols ft r)) }
  let final := joinNewColumns (getAttr st attrib) (hierarchy ++ [dtCol]) calcs newNames
  setAttr st attrib final

/-- Lines 169-213 (lag_features): the replay entry is appended first, then
the positive-lag assertion runs, then one set of lagged columns per lag is
joined on. -/
def lag_features (f : FFrame) (features : List String) (lags : List Int)
    (attrib : String) : PyResult :=
  let f := if attrib = "sample" then
      { f with function_list := f.function_list ++
          [ReplayEntry.lag_features features lags] }
    else f
  let data := getAttr f attrib
  if (lags.filter (fun l => l < 1)) ≠ [] then
    Except.error (PyErr.assertionError
      ("Please ensure all lags are greater than 0 to avoid leaking data."), f)
  else
    Except.ok (lags.foldl (lagStep f.hierarchy f.datetime_column features attrib data) f)

/-- Lines 216-246 (_aggregate_features): aggregate the frame up a level by
the groupers' columns plus the datetime column, applying the groupers'
operation to each feature; the pandas aggregation kernel is the aggInterp
oracle (operation name to function from observations to value). -/
def _aggregate_features (aggInterp : String → List Rat → Rat) (data : DF)
    (fframe : FFrame) (features : List String) (groupers : Groupers) : DF :=
  let gcols := groupers.columns ++ [fframe.datetime_column]
  { cols := gcols ++ features,
    rows := (groupKeys data gcols false).map (fun k =>
      k ++ features.map (fun ft =>
        Val.num (aggInterp groupers.operation
          ((rowsOfKey data gcols k).filterMap (fun r => (cellAt data.cols ft r).asNum))))) }

/-- The groupby(groupby_cols, dropna=False)[features].apply of
shift(lag).rolling(windowD, min_periods).agg sequence: one output row per
input row of each group, keyed by group key and datetime index, with one
value column per (source column, kernel) spec, named by newNames. -/
def groupedApplyRolling (df : DF) (groupCols : List String) (dtCol : String)
    (specs : List (String × (List Rat → Rat))) (newNames : List String)
    (window lag minp : Int) : DF :=
  { cols := groupCols ++ [dtCol] ++ newNames,
    rows := (groupKeys df groupCols false).flatMap (fun k =>
      let grows := rowsOfKey df groupCols k
      let dates := grows.map (fun r => cellAt df.cols dtCol r)
      let vcols := specs.map (fun s =>
        rollingTimeAgg window minp s.2 dates
          (shiftList lag (grows.map (fun r => cellAt df.cols s.1 r))))
      (List.range grows.length).map (fun i =>
        k ++ [dates.getD i Val.null] ++ vcols.map (fun c => c.getD i Val.null))) }

/-- The momentum/percentage sub-blocks of calc_statistical_features (lines
369-391): divide the lag-shifted feature columns elementwise by the named
rolling columns and assign the suffixed result columns. -/
def ratioBlock (features : List String) (lag : Int) (names : List String)
    (suffix : String) (data : DF) : DF :=
  (features.zip names).foldl (fun acc p =>
    let numer := shiftList lag (data.getCol p.1)
    let divis := data.getCol p.2
    acc.setCol (p.2 ++ suffix) ((numer.zip divis).map (fun q => q.1.divNum q.2))) data

/-- One window iteration of calc_statistical_features (lines 336-391): the
rolling statistics renamed by _get_transformed_column_names and joined on,
then the momentum and percentage blocks with their aggregation assertions. -/
def statStep (aggInterp : String → List Rat → Rat) (features : List String)
    (aggregations : List String) (lag : Int) (min_periods : Int)
    (momentums percentages : Bool) (attrib : String)
    (grouper_name : Option String) (groupby_cols : List String) (dtCol : String)
    (processed_data : DF) (ceilPow : Int → Int)
    (st : FFrame) (window : Int) : Except (PyErr × FFrame) FFrame :=
  let min_period := if min_periods = 0 then ceilPow window else min_periods
  let column_names := features.flatMap (fun ft => aggregations.map (fun a => ft ++ "_" ++ a))
  let specs := features.flatMap (fun ft => aggregations.map (fun a => (ft, aggInterp a)))
  let newNames := _get_transformed_column_names column_names window lag grouper_name ""
  let calcs := groupedApplyRolling processed_data groupby_cols dtCol specs newNames
      window lag min_period
  let st := setAttr st attrib
      (joinNewColumns (getAttr st attrib) (groupby_cols ++ [dtCol]) calcs newNames)
  if momentums = true ∧ ¬ aggregations.contains ("mean") = true then
    Except.error (PyErr.assertionError (""), st)
  else
    let st := if momentums then
        setAttr st attrib (ratioBlock features lag
          (newNames.filter (fun c => containsSubstr c ("_mean_"))) ("_momentum")
          (getAttr st attrib))
      else st
    if percentages = true ∧ ¬ aggregations.contains ("sum") = true then
      Except.error (PyErr.assertionError (""), st)
    else
      let st := if percentages then
          setAttr st attrib (ratioBlock features lag
            (newNames.filter (fun c => containsSubstr c ("_sum_"))) ("_perc")
            (getAttr st attrib))
        else st
      Except.ok st

/-- Lines 249-391 (calc_statistical_features): the replay entry is appended
first, then the frame (possibly aggregated up by the groupers) is given the
rolling statistics window by window. -/
def calc_statistical_features (f : FFrame) (features : List String)
    (windows : List Int) (aggregations : List String) (lag : Int)
    (groupers : Option Groupers) (min_periods : Int) (momentums percentages : Bool)
    (attrib : String) (aggInterp : String → List Rat → Rat)
    (ceilPow : Int → Int) : PyResult :=
  let f := if attrib = "sample" then
      { f with function_list := f.function_list ++
          [ReplayEntry.calc_statistical_features features windows aggregations lag
            groupers min_periods momentums percentages] }
    else f
  let data := getAttr f attrib
  let gnp : Option String × List String × DF :=
    match groupers with
    | none => (none, f.hierarchy, data)
    | some g => (some g.name, g.columns, _aggregate_features aggInterp data f features g)
  windows.foldlM (statStep aggInterp features aggregations lag min_periods momentums
    percentages attrib gnp.1 gnp.2.1 f.datetime_column gnp.2.2 ceilPow) f

/-- The grouped ewm block of calc_ewma (lines 486-499): like
groupedApplyRolling but with the positional exponentially weighted mean. -/
def groupedApplyEwm (df : DF) (groupCols : List String) (dtCol : String)
    (features : List String) (newNames : List String) (span lag minp : Int) : DF :=
  { cols := groupCols ++ [dtCol] ++ newNames,
    rows := (groupKeys df groupCols false).flatMap (fun k =>
      let grows := rowsOfKey df groupCols k
      let dates := grows.map (fun r => cellAt df.cols dtCol r)
      let vcols := features.map (fun ft =>
        ewmMeanCol span minp (shiftList lag (grows.map (fun r => cellAt df.cols ft r))))
      (List.range grows.length).map (fun i =>
        k ++ [dates.getD i Val.null] ++ vcols.map (fun c => c.getD i Val.null))) }

/-- One window iteration of the calc_ewma loop (lines 478-508), accumulating
the per-window frames for the crossover block. -/
def ewmaStep (features : List String) (lag : Int) (min_periods : Option Int)
    (attrib : String) (grouper_name : Option String) (groupby_cols : List String)
    (dtCol : String) (data : DF) (ceilPow : Int → Int) (crossovers : Bool)
    (acc : FFrame × List DF) (window : Int) : FFrame × List DF :=
  let st := acc.1
  let min_period :=
    match min_periods with
    | none => ceilPow window
    | some m => if m = 0 then ceilPow window else m
  let newNames := _get_transformed_column_names features window lag grouper_name ("_ewma")
  let calcs := groupedApplyEwm data groupby_cols dtCol features newNames window lag min_period
  let st := setAttr st attrib
      (joinNewColumns (getAttr st attrib) (groupby_cols ++ [dtCol]) calcs newNames)
  (st, if crossovers then acc.2 ++ [calcs] else acc.2)

/-- The crossover block of calc_ewma (lines 510-525): for each pair of
successively windowed frames, divide their value matrices elementwise and
assign columns suffixed with the second frame's window identifier. -/
def ewmaCrossovers (groupby_cols : List String) (pairs : List (DF × DF))
    (data : DF) : DF :=
  pairs.foldl (fun acc p =>
    let idxn := groupby_cols.length + 1
    let firstNames := p.1.cols.drop idxn
    let secondNames := p.2.cols.drop idxn
    let identifier := findNumber (secondNames.getD 0 "") ("roll")
    (firstNames.zip secondNames).foldl (fun acc2 q =>
      acc2.setCol (q.1 ++ "_cross" ++ identifier)
        (((p.1.rows.map (fun r => cellAt p.1.cols q.1 r)).zip
          (p.2.rows.map (fun r => cellAt p.2.cols q.2 r))).map
          (fun z => z.1.divNum z.2))) acc) data

/-- Lines 394-525 (calc_ewma): the crossover-windows validation runs before
everything else, so a failing call raises before the replay entry is
appended; otherwise the entry is appended and the windows are processed in
sorted order, with the crossover ratios added at the end. -/
def calc_ewma (f : FFrame) (features : List String) (windows : List Int)
    (lag : Int) (groupers : Option Groupers) (min_periods : Option Int)
    (crossovers : Bool) (attrib : String)
    (aggInterp : String → List Rat → Rat) (ceilPow : Int → Int) : PyResult :=
  if crossovers = true ∧ windows.length ≤ 1 then
    Except.error (PyErr.valueError
      ("Please pass 2+ windows if you want to calculate crossovers."), f)
  else
    let f := if attrib = "sample" then
        { f with function_list := f.function_list ++
            [ReplayEntry.calc_ewma features windows lag groupers min_periods crossovers] }
      else f
    let windows := List.insertionSort (fun a b => a ≤ b) windows
    let gnp : Option String × List String × DF :=
      match groupers with
      | none => (none, f.hierarchy, getAttr f attrib)
      | some g => (some g.name, g.columns,
          _aggregate_features aggInterp (getAttr f attrib) f features g)
    let res := windows.foldl (ewmaStep features lag min_periods attrib gnp.1
        gnp.2.1 f.datetime_column gnp.2.2 ceilPow crossovers) (f, [])
    let st := res.1
    let st := if crossovers then
        setAttr st attrib (ewmaCrossovers gnp.2.1 (splitPairwise res.2)
          (getAttr st attrib))
      else st
    Except.ok st

/-- The grouped positional shift of one feature column, aligned with the
frame's rows (rows of a null-keyed group give null, as the groupby default
drops them). -/
def groupedShift (data : DF) (groupers : List String) (feature : String)
    (lag : Int) : List Val :=
  data.rows.enum.map (fun p =>
    let k := keyOf data.cols groupers p.2
    if k.any Val.isNull then Val.null
    else
      let positions := (data.rows.enum.filter
        (fun q => keyOf data.cols groupers q.2 == k)).map Prod.fst
      match positions.findIdx? (fun j => j == p.1) with
      | some mi =>
          let src := (mi : Int) - lag
          if 0 ≤ src ∧ src.toNat < positions.length then
            cellAt data.cols feature (data.rows.getD (positions.getD src.toNat 0) [])
          else Val.null
      | none => Val.null)

/-- Lines 556-570 (_calc_percent_change): the grouped positional shift is
followed by an ungrouped pct_change over the whole resulting series (the
grouped shift returns a plain series in the source), with infinities from
division by zero replaced by null. -/
def _calc_percent_change (data : DF) (feature : String) (groupers : List String)
    (lag : Int) (column_name : String) : DF :=
  let shifted := groupedShift data groupers feature lag
  let pct := (List.range shifted.length).map (fun i =>
    match (if i = 0 then Val.null else shifted.getD (i - 1) Val.null).asNum,
          (shifted.getD i Val.null).asNum with
    | some a, some b => if a = 0 then Val.null else Val.num (b / a - 1)
    | _, _ => Val.null)
  data.setCol column_name pct

/-- Lines 573-633 (calc_percent_change): the replay entry is appended first;
the feature defaults to the target, the column name carries the grouper name
when groupers are given. -/
def calc_percent_change (f : FFrame) (feature : Option String) (lag : Int)
    (groupers : Option Groupers) (attrib : String) : PyResult :=
  let f := if attrib = "sample" then
      { f with function_list := f.function_list ++
          [ReplayEntry.calc_percent_change feature lag groupers] }
    else f
  let data := getAttr f attrib
  let feature := match feature with | none => f.target | some ft => ft
  let gc : List String × String :=
    match groupers with
    | none => (f.hierarchy, feature ++ "_pct_change")
    | some g => (g.columns, feature ++ "_" ++ g.name ++ "_pct_change")
  Except.ok (setAttr f attrib (_calc_percent_change data feature gc.1 lag gc.2))

/-- The pandas comparison method pd.DataFrame.gt against a scalar. -/
def pdGt (v : Val) (t : Rat) : Val :=
  Val.bool (match v.asNum with | some a => decide (t < a) | none => false)

/-- The pandas comparison method pd.DataFrame.lt against a scalar. -/
def pdLt (v : Val) (t : Rat) : Val :=
  Val.bool (match v.asNum with | some a => decide (a < t) | none => false)

/-- The pandas comparison method pd.DataFrame.eq against a scalar. -/
def pdEq (v : Val) (t : Rat) : Val :=
  Val.bool (match v.asNum with | some a => decide (a = t) | none => false)

/-- The pandas comparison method pd.DataFrame.ne against a scalar. -/
def pdNe (v : Val) (t : Rat) : Val :=
  Val.bool (match v.asNum with | some a => decide (¬ a = t) | none => true)

/-- The operator_dict of calc_percent_relative_to_threshold (lines 702-707),
mapping the four operator names to the pandas comparisons. -/
def operator_dict : List (String × (Val → Rat → Val)) :=
  [("greater", pdGt), ("less", pdLt), ("equal", pdEq), ("not equal", pdNe)]

/-- One window iteration of calc_percent_relative_to_threshold (lines
731-760): the feature columns of the working frame are replaced by the
comparison of their threshold-filled values against the threshold, the
rolling mean of the result is renamed and joined on. -/
def prtStep (features : List String) (lag : Int) (min_periods : Int)
    (threshold : Int) (cmp : Val → Rat → Val) (attrib : String)
    (grouper_name : Option String) (groupby_cols : List String) (dtCol : String)
    (ceilPow : Int → Int) (designator : String)
    (acc : FFrame × DF) (window : Int) : FFrame × DF :=
  let st := acc.1
  let min_period := if min_periods = 0 then ceilPow window else min_periods
  let processed := features.foldl (fun d ft =>
    d.setCol ft ((d.getCol ft).map (fun v =>
      cmp (v.fillna (Val.num (threshold : Rat))) (threshold : Rat)))) acc.2
  let newNames := _get_transformed_column_names features window lag grouper_name designator
  let calcs := groupedApplyRolling processed groupby_cols dtCol
      (features.map (fun ft => (ft, meanRat))) newNames window lag min_period
  let st := setAttr st attrib
      (joinNewColumns (getAttr st attrib) (groupby_cols ++ [dtCol]) calcs newNames)
  (st, processed)

/-- Lines 636-760 (calc_percent_relative_to_threshold): the replay entry is
appended first, then the operator assertion runs against operator_dict, then
the frame is deep-copied and given the rolling share-relative-to-threshold
columns window by window. -/
def calc_percent_relative_to_threshold (f : FFrame) (features : List String)
    (windows : List Int) (lag : Int) (groupers : Option Groupers)
    (min_periods : Int) (threshold : Int) (operator : String) (attrib : String)
    (aggInterp : String → List Rat → Rat) (ceilPow : Int → Int) : PyResult :=
  let f := if attrib = "sample" then
      { f with function_list := f.function_list ++
          [ReplayEntry.calc_percent_relative_to_threshold features windows lag
            groupers min_periods threshold operator] }
    else f
  match operator_dict.lookup operator with
  | none => Except.error (PyErr.assertionError
      ("Operator should be one of dict_keys(['greater', 'less', 'equal', 'not equal'])"), f)
  | some cmp =>
      let data := getAttr f attrib
      let features := if features = [] then [f.target] else features
      let gnp : Option String × List String × DF :=
        match groupers with
        | none => (none, f.hierarchy, data)
        | some g => (some g.name, g.columns, _aggregate_features aggInterp data f features g)
      let res := windows.foldl (prtStep features lag min_periods threshold cmp attrib
          gnp.1 gnp.2.1 f.datetime_column ceilPow
          ("_perc_" ++ operator ++ toString threshold)) (f, gnp.2.2)
      Except.ok res.1

/-- Lines 763-800 (calc_prophet_predictions). The models-module helpers
(_preprocess_prophet_names, _fit_prophet, _predict_prophet,
_postprocess_prophet_names) are not among the provided sources; modelled
from the spec as oracles: prophetTrain maps the training frame to the
postprocessed training predictions, prophetTest maps the training and test
frames to the postprocessed test predictions. When no training frame is
passed, the replay entry goes onto ensemble_list before the null-target
check runs. -/
def calc_prophet_predictions (f : FFrame) (train_df : Option DF) (test_df : Option DF)
    (args : List Val) (kwargs : List (String × Val))
    (prophetTrain : DF → DF) (prophetTest : DF → DF → DF) :
    Except (PyErr × FFrame) (FFrame × Option (DF × DF)) :=
  let ft : FFrame × DF :=
    match train_df with
    | some d => (f, d)
    | none => ({ f with ensemble_list := f.ensemble_list ++
          [ReplayEntry.calc_prophet_predictions args kwargs] }, f.sample)
  let f := ft.1
  let train := ft.2
  if 0 < ((train.getCol f.target).filter Val.isNull).length then
    Except.error (PyErr.valueError
      ("DataFrame's target column contains nulls values. Please fix before building Prophet forecasts."), f)
  else
    let trainOut := prophetTrain train
    match test_df with
    | some t => Except.ok (f, some (trainOut, prophetTest train t))
    | none => Except.ok ({ f with sample := trainOut }, none)

/-! ### Concrete frames used by witnesses and counterexamples -/

/-- A small sample frame: two stores, dates measured in days, integer sales. -/
def exDF : DF :=
  { cols := ["date", "store", "sales"],
    rows := [[Val.num 0, Val.str ("a"), Val.num 2],
             [Val.num 3, Val.str ("a"), Val.num 5],
             [Val.num 0, Val.str ("b"), Val.num 0]] }

/-- A forecastframe state over exDF with empty replay lists. -/
def exFrame : FFrame :=
  { sample := exDF, data := { cols := [], rows := [] },
    hierarchy := ["store"], datetime_column := "date", target := "sales",
    function_list := [], ensemble_list := [] }

/-- A one-row frame whose only group never has a positive target. -/
def zeroFrame : FFrame :=
  { sample := { cols := ["date", "store", "sales"],
                rows := [[Val.num 0, Val.str ("a"), Val.num 0]] },
    data := { cols := [], rows := [] },
    hierarchy := ["store"], datetime_column := "date", target := "sales",
    function_list := [], ensemble_list := [] }

/-- A frame whose sample target column contains a null. -/
def nullFrame : FFrame :=
  { sample := { cols := ["date", "store", "sales"],
                rows := [[Val.num 0, Val.str ("a"), Val.null]] },
    data := { cols := [], rows := [] },
    hierarchy := ["store"], datetime_column := "date", target := "sales",
    function_list := [], ensemble_list := [] }

/-! ### Helper lemmas -/

/-- The name format exactly as the specification's sentence states it:
feature, then underscore plus grouper name (omitted when the grouper name is
empty or None), then designator, then "_roll" plus the window, then "_lag"
plus the lag, the lag suffix omitted exactly when the lag is zero. -/
def specTransformedName (window lag : Int) (grouper_name : Option String)
    (designator : String) (feature : String) : String :=
  feature
    ++ (match grouper_name with
        | none => ""
        | some g => if g = "" then "" else "_" ++ g)
    ++ designator ++ "_roll" ++ toString window
    ++ (if lag = 0 then "" else "_lag" ++ toString lag)

theorem transformedName_eq_spec (window lag : Int) (grouper_name : Option String)
    (designator : String) (feature : String) :
    transformedName window lag grouper_name designator feature
      = specTransformedName window lag grouper_name designator feature := by
  unfold transformedName specTransformedName
  rcases grouper_name with _ | g <;>
    by_cases hl : lag = 0 <;> simp [hl, String.append_assoc]

theorem mem_dedupStr {s : String} {l : List String} (h : s ∈ l) : s ∈ dedupStr l := by
  induction l with
  | nil => cases h
  | cons x xs ih =>
      rcases List.mem_cons.mp h with h | h
      · subst h
        by_cases hx : s ∈ dedupStr xs
        · simp [dedupStr, hx]
        · simp [dedupStr, hx]
      · by_cases hx : x ∈ dedupStr xs <;> simp [dedupStr, hx, ih h]

theorem lookup_map_pair {α : Type} (g : String → α) (L : List String) (s : String)
    (h : s ∈ L) : (L.map (fun x => (x, g x))).lookup s = some (g s) := by
  induction L with
  | nil => cases h
  | cons x xs ih =>
      rcases List.mem_cons.mp h with h | h
      · subst h
        simp [List.lookup]
      · by_cases hx : s = x
        · subst hx
          simp [List.lookup]
        · have hbeq : (s == x) = false := by simp [hx]
          simp [List.lookup, hbeq, ih h]

/-- The four operator names accepted by calc_percent_relative_to_threshold. -/
def valid_operators : List String := ["greater", "less", "equal", "not equal"]

/-- Whether a transform result is a successful return. -/
def isOkResult (r : PyResult) : Bool :=
  match r with
  | Except.ok _ => true
  | Except.error _ => false

theorem operator_dict_lookup_none_iff (op : String) :
    operator_dict.lookup op = none ↔ ¬ op ∈ valid_operators := by
  by_cases h1 : op = "greater"
  · subst h1; simp [operator_dict, valid_operators, List.lookup]
  · by_cases h2 : op = "less"
    · subst h2; simp [operator_dict, valid_operators, List.lookup]
    · by_cases h3 : op = "equal"
      · subst h3; simp [operator_dict, valid_operators, List.lookup]
      · by_cases h4 : op = "not equal"
        · subst h4; simp [operator_dict, valid_operators, List.lookup]
        · have b1 : (op == "greater") = false := beq_eq_false_iff_ne.mpr h1
          have b2 : (op == "less") = false := beq_eq_false_iff_ne.mpr h2
          have b3 : (op == "equal") = false := beq_eq_false_iff_ne.mpr h3
          have b4 : (op == "not equal") = false := beq_eq_false_iff_ne.mpr h4
          simp [operator_dict, valid_operators, List.lookup, b1, b2, b3, b4,
            h1, h2, h3, h4]

theorem mem_of_colIdx_eq_some {cols : List String} {c : String} {i : Nat}
    (h : colIdx cols c = some i) : c ∈ cols := by
  unfold colIdx at h
  rcases List.findIdx?_eq_some_iff_getElem.mp h with ⟨hlt, hp, _⟩
  have hc : cols[i] = c := by simpa using hp
  exact hc ▸ List.getElem_mem hlt

theorem setCol_cols_mono {df : DF} {c' : String} {vals : List Val} {c : String}
    (h : c ∈ df.cols) : c ∈ (DF.setCol df c' vals).cols := by
  unfold DF.setCol
  cases colIdx df.cols c' <;> simp [h]

theorem mem_setCol_cols (df : DF) (c : String) (vals : List Val) :
    c ∈ (DF.setCol df c vals).cols := by
  unfold DF.setCol
  cases h : colIdx df.cols c with
  | some i => simpa using mem_of_colIdx_eq_some h
  | none => simp

theorem foldl_setCol_cols_mono (vf : String → List Val) (names : List String) :
    ∀ (d : DF) (c : String), c ∈ d.cols →
      c ∈ (names.foldl (fun acc nm => acc.setCol nm (vf nm)) d).cols := by
  induction names with
  | nil => intro d c h; exact h
  | cons x xs ih => intro d c h; exact ih _ _ (setCol_cols_mono h)

theorem foldl_setCol_cols_mem (vf : String → List Val) (names : List String) :
    ∀ (d : DF) (c : String), c ∈ names →
      c ∈ (names.foldl (fun acc nm => acc.setCol nm (vf nm)) d).cols := by
  induction names with
  | nil => intro d c h; cases h
  | cons x xs ih =>
      intro d c h
      rcases List.mem_cons.mp h with h | h
      · subst h
        exact foldl_setCol_cols_mono vf xs _ _ (mem_setCol_cols d c (vf c))
      · exact ih _ _ h

theorem joinNewColumns_cols_mono {base cal : DF} {k names : List String} {c : String}
    (h : c ∈ base.cols) : c ∈ (joinNewColumns base k cal names).cols := by
  unfold joinNewColumns
  exact foldl_setCol_cols_mono _ names base c h

theorem mem_joinNewColumns_cols {base cal : DF} {k names : List String} {c : String}
    (h : c ∈ names) : c ∈ (joinNewColumns base k cal names).cols := by
  unfold joinNewColumns
  exact foldl_setCol_cols_mem _ names base c h

theorem getAttr_setAttr (f : FFrame) (a : String) (d : DF) :
    getAttr (setAttr f a d) a = d := by
  unfold getAttr setAttr
  by_cases h : a = "sample" <;> simp [h]

theorem setAttr_function_list (f : FFrame) (a : String) (d : DF) :
    (setAttr f a d).function_list = f.function_list := by
  unfold setAttr
  by_cases h : a = "sample" <;> simp [h]

theorem ite_setAttr_function_list (c : Prop) [Decidable c] (x : FFrame)
    (a : String) (d : DF) :
    (if c then setAttr x a d else x).function_list = x.function_list := by
  by_cases h : c <;> simp [h, setAttr_function_list]

theorem foldl_pair_function_list {β : Type} (g : (FFrame × β) → Int → (FFrame × β))
    (hg : ∀ acc w, ((g acc w).1).function_list = acc.1.function_list) (l : List Int) :
    ∀ acc, ((l.foldl g acc).1).function_list = acc.1.function_list := by
  induction l with
  | nil => intro acc; rfl
  | cons w ws ih =>
      intro acc
      exact (ih (g acc w)).trans (hg acc w)

theorem foldl_plain_function_list (g : FFrame → Int → FFrame)
    (hg : ∀ st w, (g st w).function_list = st.function_list) (l : List Int) :
    ∀ st, (l.foldl g st).function_list = st.function_list := by
  induction l with
  | nil => intro st; rfl
  | cons w ws ih =>
      intro st
      exact (ih (g st w)).trans (hg st w)

theorem foldlM_function_list (g : FFrame → Int → Except (PyErr × FFrame) FFrame)
    (hg : ∀ st w, (outState (g st w)).function_list = st.function_list)
    (l : List Int) : ∀ st : FFrame,
      (outState (l.foldlM g st)).function_list = st.function_list := by
  induction l with
  | nil => intro st; rfl
  | cons w ws ih =>
      intro st
      have hstep := hg st w
      rw [List.foldlM_cons]
      cases hgw : g st w with
      | error e =>
          rw [hgw] at hstep
          have hbind : (Except.error e >>= fun s => ws.foldlM g s)
              = (Except.error e : Except (PyErr × FFrame) FFrame) := rfl
          rw [hbind]
          exact hstep
      | ok s =>
          rw [hgw] at hstep
          have hbind : (Except.ok s >>= fun s => ws.foldlM g s) = ws.foldlM g s := rfl
          rw [hbind]
          exact (ih s).trans hstep

theorem lagStep_function_list (hier : List String) (dt : String)
    (feats : List String) (attrib : String) (d0 : DF) (st : FFrame) (lag : Int) :
    (lagStep hier dt feats attrib d0 st lag).function_list = st.function_list := by
  unfold lagStep
  exact setAttr_function_list _ _ _

theorem statStep_function_list (aggInterp : String → List Rat → Rat)
    (features aggregations : List String) (lag min_periods : Int)
    (momentums percentages : Bool) (attrib : String) (gname : Option String)
    (gcols : List String) (dt : String) (pdata : DF) (ceilPow : Int → Int)
    (st : FFrame) (w : Int) :
    (outState (statStep aggInterp features aggregations lag min_periods momentums
      percentages attrib gname gcols dt pdata ceilPow st w)).function_list
      = st.function_list := by
  unfold statStep
  cases momentums <;> cases percentages <;>
    by_cases hmean : ("mean" : String) ∈ aggregations <;>
    by_cases hsum : ("sum" : String) ∈ aggregations <;>
    simp [outState, setAttr_function_list, hmean, hsum]

theorem ewmaStep_function_list (features : List String) (lag : Int)
    (min_periods : Option Int) (attrib : String) (gname : Option String)
    (gcols : List String) (dt : String) (data : DF) (ceilPow : Int → Int)
    (crossovers : Bool) (acc : FFrame × List DF) (w : Int) :
    ((ewmaStep features lag min_periods attrib gname gcols dt data ceilPow
        crossovers acc w).1).function_list = acc.1.function_list := by
  unfold ewmaStep
  exact setAttr_function_list _ _ _

theorem prtStep_function_list (features : List String) (lag min_periods threshold : Int)
    (cmp : Val → Rat → Val) (attrib : String) (gname : Option String)
    (gcols : List String) (dt : String) (ceilPow : Int → Int) (desig : String)
    (acc : FFrame × DF) (w : Int) :
    ((prtStep features lag min_periods threshold cmp attrib gname gcols dt ceilPow
        desig acc w).1).function_list = acc.1.function_list := by
  unfold prtStep
  exact setAttr_function_list _ _ _

theorem lagFold_function_list (hier : List String) (dt : String) (feats : List String)
    (attrib : String) (d0 : DF) (lags : List Int) (st : FFrame) :
    (lags.foldl (lagStep hier dt feats attrib d0) st).function_list
      = st.function_list :=
  foldl_plain_function_list _
    (fun st w => lagStep_function_list hier dt feats attrib d0 st w) lags st

theorem statFold_function_list (aggInterp : String → List Rat → Rat)
    (features aggregations : List String) (lag min_periods : Int)
    (momentums percentages : Bool) (attrib : String) (gname : Option String)
    (gcols : List String) (dt : String) (pdata : DF) (ceilPow : Int → Int)
    (windows : List Int) (st : FFrame) :
    (outState (windows.foldlM (statStep aggInterp features aggregations lag
        min_periods momentums percentages attrib gname gcols dt pdata ceilPow)
      st)).function_list = st.function_list :=
  foldlM_function_list _
    (fun st w => statStep_function_list aggInterp features aggregations lag
      min_periods momentums percentages attrib gname gcols dt pdata ceilPow st w)
    windows st

theorem ewmaFold_function_list (features : List String) (lag : Int)
    (min_periods : Option Int) (attrib : String) (gname : Option String)
    (gcols : List String) (dt : String) (data : DF) (ceilPow : Int → Int)
    (crossovers : Bool) (windows : List Int) (acc : FFrame × List DF) :
    ((windows.foldl (ewmaStep features lag min_periods attrib gname gcols dt data
        ceilPow crossovers) acc).1).function_list = acc.1.function_list :=
  foldl_pair_function_list _
    (fun acc w => ewmaStep_function_list features lag min_periods attrib gname
      gcols dt data ceilPow crossovers acc w) windows acc

theorem prtFold_function_list (features : List String) (lag min_periods threshold : Int)
    (cmp : Val → Rat → Val) (attrib : String) (gname : Option String)
    (gcols : List String) (dt : String) (ceilPow : Int → Int) (desig : String)
    (windows : List Int) (acc : FFrame × DF) :
    ((windows.foldl (prtStep features lag min_periods threshold cmp attrib gname
        gcols dt ceilPow desig) acc).1).function_list = acc.1.function_list :=
  foldl_pair_function_list _
    (fun acc w => prtStep_function_list features lag min_periods threshold cmp
      attrib gname gcols dt ceilPow desig acc w) windows acc

/-- Replay list after one bookkeeping step: the entry appended for the
sample attribute, unchanged for any other attribute. -/
def replayAfter (attrib : String) (fl : List ReplayEntry) (e : ReplayEntry) :
    List ReplayEntry :=
  if attrib = "sample" then fl ++ [e] else fl

theorem meanRat_nonneg {xs : List Rat} (h : ∀ x ∈ xs, 0 ≤ x) : 0 ≤ meanRat xs := by
  unfold meanRat
  apply div_nonneg (List.sum_nonneg h)
  exact_mod_cast Nat.zero_le _

theorem meanAbsShap_nonneg (n : Nat) (sv : List (List Rat)) :
    ∀ q ∈ meanAbsShap n sv, 0 ≤ q := by
  intro q hq
  unfold meanAbsShap at hq
  rcases List.mem_map.mp hq with ⟨j, _, rfl⟩
  apply meanRat_nonneg
  intro x hx
  rcases List.mem_map.mp hx with ⟨row, _, rfl⟩
  exact abs_nonneg _

theorem map_abs_eq_self {l : List Rat} (h : ∀ x ∈ l, 0 ≤ x) :
    l.map (fun q => |q|) = l := by
  induction l with
  | nil => rfl
  | cons x xs ih =>
      simp only [List.map_cons]
      rw [abs_of_nonneg (h x (List.mem_cons_self x xs)),
        ih (fun y hy => h y (List.mem_cons_of_mem x hy))]

theorem meanAbsShap_length (n : Nat) (sv : List (List Rat)) :
    (meanAbsShap n sv).length = n := by
  unfold meanAbsShap
  simp

theorem argsort_perm (xs : List Rat) :
    (argsort xs).Perm (List.range xs.length) :=
  List.perm_insertionSort _ _

theorem argsort_sorted (xs : List Rat) :
    (argsort xs).Sorted (fun i j => xs.getD i 0 ≤ xs.getD j 0) := by
  unfold argsort
  haveI : IsTotal Nat (fun i j => xs.getD i 0 ≤ xs.getD j 0) :=
    ⟨fun a b => le_total _ _⟩
  haveI : IsTrans Nat (fun i j => xs.getD i 0 ≤ xs.getD j 0) :=
    ⟨fun a b c hab hbc => le_trans hab hbc⟩
  exact List.sorted_insertionSort _ _

theorem mem_argsort_lt {xs : List Rat} {j : Nat} (h : j ∈ argsort xs) :
    j < xs.length :=
  List.mem_range.mp ((argsort_perm xs).mem_iff.mp h)

theorem get_sorted_shap_values_eq (cols : List String) (sv : List (List Rat)) :
    get_sorted_shap_values cols sv
      = ((argsort (meanAbsShap cols.length sv)).reverse).map
          (fun j => (cols.getD j "", (meanAbsShap cols.length sv).getD j 0)) := by
  simp only [get_sorted_shap_values]
  rw [map_abs_eq_self (meanAbsShap_nonneg cols.length sv)]
  rw [← List.map_reverse, ← List.map_reverse]
  exact List.zip_map' _ _ _

theorem set_append_cons {α : Type} (l : List α) (y : α) (t : List α) (x : α) :
    (l ++ y :: t).set l.length x = l ++ x :: t := by
  induction l with
  | nil => rfl
  | cons a as ih => simp [List.cons_append, ih]

theorem eraseIdx_append_cons {α : Type} (l : List α) (y : α) (t : List α) :
    (l ++ y :: t).eraseIdx l.length = l ++ t := by
  induction l with
  | nil => rfl
  | cons a as ih => simp [List.cons_append, ih]

theorem take_append_exact {α : Type} (l t : List α) : (l ++ t).take l.length = l := by
  induction l with
  | nil => rfl
  | cons a as ih => simp [List.cons_append, ih]

theorem colIdx_eq_none {l : List String} {c : String} (h : ¬ c ∈ l) :
    colIdx l c = none := by
  unfold colIdx
  rw [List.findIdx?_eq_none_iff]
  intro x hx
  exact beq_eq_false_iff_ne.mpr (fun he => h (he ▸ hx))

theorem colIdx_append_cons {pre : List String} {c : String} (rest : List String)
    (h : ¬ c ∈ pre) : colIdx (pre ++ c :: rest) c = some pre.length := by
  induction pre with
  | nil =>
      unfold colIdx
      simp [List.findIdx?_cons]
  | cons x xs ih =>
      have hx : (x == c) = false := beq_eq_false_iff_ne.mpr
        (fun he => h (he ▸ List.mem_cons_self x xs))
      unfold colIdx at ih ⊢
      rw [List.cons_append, List.findIdx?_cons, hx]
      simp only [Bool.false_eq_true, if_false, List.findIdx?_start_succ]
      rw [ih (fun hm => h (List.mem_cons_of_mem x hm))]
      simp [Nat.add_comm]

theorem snd_mem_of_mem_enum {α : Type} {l : List α} {p : Nat × α}
    (h : p ∈ l.enum) : p.2 ∈ l := by
  have hm := List.mem_map_of_mem Prod.snd h
  rwa [List.enum_map_snd] at hm

theorem getAttr_update_fl (f : FFrame) (l : List ReplayEntry) (a : String) :
    getAttr { f with function_list := l } a = getAttr f a := by
  unfold getAttr
  by_cases h : a = "sample" <;> simp [h]

theorem setCol_overwrite (df : DF) (c : String) (vals : List Val) {i : Nat}
    (hidx : colIdx df.cols c = some i) :
    (df.setCol c vals).cols = df.cols
    ∧ ∀ r' ∈ (df.setCol c vals).rows, ∃ p : Nat × List Val, p ∈ df.rows.enum ∧
        r' = p.2.set i (vals.getD p.1 Val.null) := by
  unfold DF.setCol
  rw [hidx]
  refine ⟨rfl, fun r' hr' => ?_⟩
  rcases List.mem_map.mp hr' with ⟨p, hp, heq⟩
  exact ⟨p, hp, heq.symm⟩

theorem setCol_append (df : DF) (c : String) (vals : List Val)
    (hidx : colIdx df.cols c = none) :
    (df.setCol c vals).cols = df.cols ++ [c]
    ∧ ∀ r' ∈ (df.setCol c vals).rows, ∃ p : Nat × List Val, p ∈ df.rows.enum ∧
        r' = p.2 ++ [vals.getD p.1 Val.null] := by
  unfold DF.setCol
  rw [hidx]
  refine ⟨rfl, fun r' hr' => ?_⟩
  rcases List.mem_map.mp hr' with ⟨p, hp, heq⟩
  exact ⟨p, hp, heq.symm⟩

theorem dropCol_spec (df : DF) (c : String) {i : Nat}
    (hidx : colIdx df.cols c = some i) :
    (df.dropCol c).cols = df.cols.eraseIdx i
    ∧ ∀ r' ∈ (df.dropCol c).rows, ∃ r ∈ df.rows, r' = r.eraseIdx i := by
  unfold DF.dropCol
  rw [hidx]
  refine ⟨rfl, fun r' hr' => ?_⟩
  rcases List.mem_map.mp hr' with ⟨r, hr, heq⟩
  exact ⟨r, hr, heq.symm⟩

theorem days_pipeline (d e : DF) (hier : List String) (vals1 vals2 : List Val)
    (he : e.cols = hier ++ [("first_purchase_date")])
    (hfp : ¬ ("first_purchase_date") ∈ d.cols)
    (hds : ¬ ("days_since_release") ∈ d.cols)
    (hfph : ¬ ("first_purchase_date") ∈ hier)
    (hwf : ∀ r ∈ d.rows, r.length = d.cols.length) :
    ((((DF.mergeOn d e hier).setCol ("first_purchase_date") vals1).setCol
        ("days_since_release") vals2).dropCol ("first_purchase_date")).cols
      = d.cols ++ [("days_since_release")]
    ∧ ∀ r' ∈ ((((DF.mergeOn d e hier).setCol ("first_purchase_date") vals1).setCol
        ("days_since_release") vals2).dropCol ("first_purchase_date")).rows,
        ∃ r ∈ d.rows, r'.take d.cols.length = r := by
  have hrest : e.cols.filter (fun c => !(hier.contains c))
      = [("first_purchase_date")] := by
    rw [he, List.filter_append]
    have h1 : hier.filter (fun c => !(hier.contains c)) = [] :=
      List.filter_eq_nil_iff.mpr (fun a ha => by simp [ha])
    have h2 : ([("first_purchase_date")] : List String).filter
        (fun c => !(hier.contains c)) = [("first_purchase_date")] := by
      simp [hfph]
    rw [h1, h2, List.nil_append]
  have hmcols : (DF.mergeOn d e hier).cols = d.cols ++ [("first_purchase_date")] := by
    simp only [DF.mergeOn]
    rw [hrest]
  have hmrows : ∀ rm ∈ (DF.mergeOn d e hier).rows,
      ∃ r, r ∈ d.rows ∧ ∃ v, rm = r ++ [v] := by
    intro rm hm
    simp only [DF.mergeOn, hrest] at hm
    rcases List.mem_flatMap.mp hm with ⟨lr, hlr, hin⟩
    rcases List.mem_map.mp hin with ⟨rr, _, heq⟩
    exact ⟨lr, hlr, cellAt e.cols ("first_purchase_date") rr, heq.symm⟩
  have hidx1 : colIdx (DF.mergeOn d e hier).cols ("first_purchase_date")
      = some d.cols.length := by
    rw [hmcols]
    exact colIdx_append_cons [] hfp
  obtain ⟨hc1, hr1⟩ :=
    setCol_overwrite (DF.mergeOn d e hier) ("first_purchase_date") vals1 hidx1
  have hF1cols : ((DF.mergeOn d e hier).setCol ("first_purchase_date") vals1).cols
      = d.cols ++ [("first_purchase_date")] := hc1.trans hmcols
  have hF1rows : ∀ r' ∈ ((DF.mergeOn d e hier).setCol
      ("first_purchase_date") vals1).rows,
      ∃ r, r ∈ d.rows ∧ ∃ v, r' = r ++ [v] := by
    intro r' hr'
    rcases hr1 r' hr' with ⟨p, hp, heq⟩
    rcases hmrows p.2 (snd_mem_of_mem_enum hp) with ⟨r, hr, v, hpv⟩
    refine ⟨r, hr, vals1.getD p.1 Val.null, ?_⟩
    rw [heq, hpv, ← hwf r hr]
    exact set_append_cons r v [] _
  have hidx2 : colIdx ((DF.mergeOn d e hier).setCol
      ("first_purchase_date") vals1).cols ("days_since_release") = none := by
    rw [hF1cols]
    apply colIdx_eq_none
    intro hmem
    rcases List.mem_append.mp hmem with h | h
    · exact hds h
    · simp at h
  obtain ⟨hc2, hr2⟩ := setCol_append ((DF.mergeOn d e hier).setCol
      ("first_purchase_date") vals1) ("days_since_release") vals2 hidx2
  have hF2cols : (((DF.mergeOn d e hier).setCol ("first_purchase_date") vals1).setCol
      ("days_since_release") vals2).cols
      = (d.cols ++ [("first_purchase_date")]) ++ [("days_since_release")] := by
    rw [hc2, hF1cols]
  have hF2rows : ∀ r'' ∈ (((DF.mergeOn d e hier).setCol
        ("first_purchase_date") vals1).setCol ("days_since_release") vals2).rows,
      ∃ r, r ∈ d.rows ∧ ∃ v w, r'' = r ++ v :: [w] := by
    intro r'' hr''
    rcases hr2 r'' hr'' with ⟨p, hp, heq⟩
    rcases hF1rows p.2 (snd_mem_of_mem_enum hp) with ⟨r, hr, v, hpv⟩
    refine ⟨r, hr, v, vals2.getD p.1 Val.null, ?_⟩
    rw [heq, hpv, List.append_assoc]
    rfl
  have hidx3 : colIdx (((DF.mergeOn d e hier).setCol
        ("first_purchase_date") vals1).setCol ("days_since_release") vals2).cols
      ("first_purchase_date") = some d.cols.length := by
    rw [hF2cols, List.append_assoc]
    exact colIdx_append_cons _ hfp
  obtain ⟨hc3, hr3⟩ := dropCol_spec (((DF.mergeOn d e hier).setCol
      ("first_purchase_date") vals1).setCol ("days_since_release") vals2)
      ("first_purchase_date") hidx3
  constructor
  · rw [hc3, hF2cols, List.append_assoc]
    exact eraseIdx_append_cons d.cols _ [("days_since_release")]
  · intro r' hr'
    rcases hr3 r' hr' with ⟨rr, hrr, heq⟩
    rcases hF2rows rr hrr with ⟨r, hr, v, w, hvw⟩
    refine ⟨r, hr, ?_⟩
    rw [heq, hvw, ← hwf r hr, eraseIdx_append_cons r v [w], take_append_exact]

/-- The frame effect the spec ascribes to the non-merging feature
transforms, relative to the table d they started from: the columns are the
pre-existing columns followed by newly appended ones, the row count is
unchanged, and every row still carries its original values on the
pre-existing columns (its length-of-d.cols prefix). -/
def extendsFrame (d df2 : DF) : Prop :=
  (∃ ext, df2.cols = d.cols ++ ext)
  ∧ df2.rows.length = d.rows.length
  ∧ ∀ i, i < d.rows.length →
      (df2.rows.getD i []).take d.cols.length = d.rows.getD i []

/-- The frame effect of the two inner-merging transforms: pre-existing
columns still lead the column list, and every surviving row agrees with some
pre-existing row on all pre-existing columns; rows may have been dropped. -/
def restrictsFrame (d df2 : DF) : Prop :=
  (∃ ext, df2.cols = d.cols ++ ext)
  ∧ ∀ r' ∈ df2.rows, ∃ r ∈ d.rows, r'.take d.cols.length = r

theorem take_set_of_le {α : Type} : ∀ (l : List α) (i m : Nat) (x : α), m ≤ i →
    (l.set i x).take m = l.take m := by
  intro l
  induction l with
  | nil => intro i m x h; simp
  | cons a as ih =>
      intro i m x h
      cases m with
      | zero => simp
      | succ m =>
          cases i with
          | zero => omega
          | succ i =>
              simp only [List.set_cons_succ, List.take_succ_cons]
              rw [ih i m x (Nat.le_of_succ_le_succ h)]

theorem colIdx_some_ge {pre ext : List String} {c : String} {idx : Nat}
    (h : colIdx (pre ++ ext) c = some idx) (hc : ¬ c ∈ pre) : pre.length ≤ idx := by
  unfold colIdx at h
  rcases List.findIdx?_eq_some_iff_getElem.mp h with ⟨hlt, hp, _⟩
  by_contra hlt2
  push_neg at hlt2
  have hget : (pre ++ ext)[idx] = pre.get ⟨idx, hlt2⟩ := List.getElem_append_left hlt2
  have hpc : pre.get ⟨idx, hlt2⟩ = c := by
    have h4 := hp
    rw [hget] at h4
    simpa using h4
  exact hc (hpc ▸ List.get_mem pre idx hlt2)

theorem setCol_rows_length (df : DF) (nm : String) (vals : List Val) :
    (df.setCol nm vals).rows.length = df.rows.length := by
  unfold DF.setCol
  cases colIdx df.cols nm <;> simp

theorem setCol_rows_getD (df : DF) (nm : String) (vals : List Val) (i : Nat)
    (hi : i < df.rows.length) :
    (df.setCol nm vals).rows.getD i []
      = (match colIdx df.cols nm with
         | some idx => (df.rows.getD i []).set idx (vals.getD i Val.null)
         | none => (df.rows.getD i []) ++ [vals.getD i Val.null]) := by
  have hi' : i < df.rows.enum.length := by simpa [List.enum_length] using hi
  unfold DF.setCol
  cases colIdx df.cols nm <;>
    simp [List.getD_eq_getElem?_getD, List.getElem?_map,
      List.getElem?_eq_getElem hi', List.getElem?_eq_getElem hi,
      List.getElem_enum]

theorem extendsFrame_refl (d : DF)
    (hwf : ∀ r ∈ d.rows, r.length = d.cols.length) : extendsFrame d d := by
  refine ⟨⟨[], by simp⟩, rfl, ?_⟩
  intro i hi
  have hmem : d.rows.getD i [] ∈ d.rows := by
    rw [List.getD_eq_getElem?_getD, List.getElem?_eq_getElem hi]
    exact List.getElem_mem hi
  rw [← hwf _ hmem, List.take_length]

theorem setCol_extendsFrame {d df2 : DF}
    (hwf : ∀ r ∈ d.rows, r.length = d.cols.length)
    (h : extendsFrame d df2) {nm : String} (hnm : ¬ nm ∈ d.cols)
    (vals : List Val) : extendsFrame d (df2.setCol nm vals) := by
  obtain ⟨⟨ext, hcols⟩, hlen, hval⟩ := h
  have hrowlen : ∀ i, i < d.rows.length →
      d.cols.length ≤ (df2.rows.getD i []).length := by
    intro i hi
    have h1 := congrArg List.length (hval i hi)
    rw [List.length_take] at h1
    have hmem : d.rows.getD i [] ∈ d.rows := by
      rw [List.getD_eq_getElem?_getD, List.getElem?_eq_getElem hi]
      exact List.getElem_mem hi
    have h2 := hwf _ hmem
    omega
  refine ⟨?_, ?_, ?_⟩
  · unfold DF.setCol
    cases colIdx df2.cols nm
    · exact ⟨ext ++ [nm], by simp [hcols]⟩
    · exact ⟨ext, hcols⟩
  · rw [setCol_rows_length]
    exact hlen
  · intro i hi
    have hi2 : i < df2.rows.length := by rw [hlen]; exact hi
    rw [setCol_rows_getD df2 nm vals i hi2]
    cases hidx : colIdx df2.cols nm with
    | some idx =>
        have hge : d.cols.length ≤ idx := by
          rw [hcols] at hidx
          exact colIdx_some_ge hidx hnm
        rw [take_set_of_le _ idx d.cols.length _ hge]
        exact hval i hi
    | none =>
        rw [List.take_append_of_le_length (hrowlen i hi)]
        exact hval i hi

theorem foldl_extends_of_step {α : Type} (d : DF) (g : DF → α → DF) (P : α → Prop)
    (hg : ∀ acc p, extendsFrame d acc → P p → extendsFrame d (g acc p)) :
    ∀ (l : List α) (acc : DF), extendsFrame d acc → (∀ p ∈ l, P p) →
      extendsFrame d (l.foldl g acc) := by
  intro l
  induction l with
  | nil => intro acc h _; exact h
  | cons x xs ih =>
      intro acc h hp
      exact ih (g acc x) (hg acc x h (hp x (List.mem_cons_self x xs)))
        (fun p hpmem => hp p (List.mem_cons_of_mem x hpmem))

theorem foldl_acc_extends {σ α : Type} (d : DF) (proj : σ → DF) (g : σ → α → σ)
    (P : α → Prop)
    (hg : ∀ acc p, extendsFrame d (proj acc) → P p → extendsFrame d (proj (g acc p))) :
    ∀ (l : List α) (acc : σ), extendsFrame d (proj acc) → (∀ p ∈ l, P p) →
      extendsFrame d (proj (l.foldl g acc)) := by
  intro l
  induction l with
  | nil => intro acc h _; exact h
  | cons x xs ih =>
      intro acc h hp
      exact ih (g acc x) (hg acc x h (hp x (List.mem_cons_self x xs)))
        (fun p hpmem => hp p (List.mem_cons_of_mem x hpmem))

theorem joinNewColumns_extendsFrame {d base cal : DF} {k names : List String}
    (hwf : ∀ r ∈ d.rows, r.length = d.cols.length)
    (hbase : extendsFrame d base) (hnames : ∀ nm ∈ names, ¬ nm ∈ d.cols) :
    extendsFrame d (joinNewColumns base k cal names) := by
  unfold joinNewColumns
  exact foldl_extends_of_step d _ (fun nm => ¬ nm ∈ d.cols)
    (fun acc nm hacc hnm => setCol_extendsFrame hwf hacc hnm _) names base hbase hnames

theorem ratioBlock_extendsFrame {d : DF} (features names : List String) (lag : Int)
    (suffix : String) {data : DF}
    (hwf : ∀ r ∈ d.rows, r.length = d.cols.length)
    (hdata : extendsFrame d data)
    (hnames : ∀ nm ∈ names, ¬ (nm ++ suffix) ∈ d.cols) :
    extendsFrame d (ratioBlock features lag names suffix data) := by
  unfold ratioBlock
  exact foldl_extends_of_step d _ (fun p : String × String => ¬ (p.2 ++ suffix) ∈ d.cols)
    (fun acc p hacc hp => setCol_extendsFrame hwf hacc hp _) (features.zip names) data
    hdata (fun p hp => hnames p.2 (List.of_mem_zip hp).2)

/-- Grouper name selected by the groupers branch of the transforms. -/
def grouperNameOf : Option Groupers → Option String
  | none => none
  | some g => some g.name

/-- Column names one calc_statistical_features window generates: the renamed
rolling statistics plus the momentum and percentage ratio columns. -/
def statWindowNames (features aggregations : List String) (lag : Int)
    (gname : Option String) (w : Int) : List String :=
  let column_names := features.flatMap (fun ft => aggregations.map (fun a => ft ++ "_" ++ a))
  let nn := _get_transformed_column_names column_names w lag gname ""
  nn ++ (nn.filter (fun c => containsSubstr c ("_mean_"))).map (fun c => c ++ "_momentum")
    ++ (nn.filter (fun c => containsSubstr c ("_sum_"))).map (fun c => c ++ "_perc")

/-- Column names one calc_ewma window generates. -/
def ewmaWindowNames (features : List String) (lag : Int) (gname : Option String)
    (w : Int) : List String :=
  _get_transformed_column_names features w lag gname ("_ewma")

/-- Column names the calc_ewma crossover block generates, one batch per
consecutive pair of the sorted windows. -/
def ewmaCrossNames (features : List String) (lag : Int) (gname : Option String)
    (ws : List Int) : List String :=
  (ws.zip (ws.drop 1)).flatMap (fun p =>
    (ewmaWindowNames features lag gname p.1).map (fun c =>
      c ++ "_cross" ++ findNumber ((ewmaWindowNames features lag gname p.2).getD 0 "") ("roll")))

/-- The column name calc_percent_change generates. -/
def pctChangeName (target : String) (feature : Option String)
    (groupers : Option Groupers) : String :=
  let ft := match feature with | none => target | some s => s
  match groupers with
  | none => ft ++ "_pct_change"
  | some g => ft ++ "_" ++ g.name ++ "_pct_change"

/-- Column names one calc_percent_relative_to_threshold window generates
(features defaulting to the target, as in the source). -/
def prtWindowNames (target : String) (features : List String) (w lag : Int)
    (gname : Option String) (operator : String) (threshold : Int) : List String :=
  _get_transformed_column_names (if features = [] then [target] else features)
    w lag gname ("_perc_" ++ operator ++ toString threshold)

/-- The per-window ewma frame the calc_ewma loop accumulates for the
crossover block. -/
def ewmaCalcsOf (features : List String) (lag : Int) (min_periods : Option Int)
    (gname : Option String) (gcols : List String) (dt : String) (data : DF)
    (ceilPow : Int → Int) (w : Int) : DF :=
  groupedApplyEwm data gcols dt features
    (_get_transformed_column_names features w lag gname ("_ewma")) w lag
    (match min_periods with
     | none => ceilPow w
     | some m => if m = 0 then ceilPow w else m)

theorem getAttr_ite_fl (f : FFrame) (L : List ReplayEntry) (a : String) :
    getAttr (if a = "sample" then { f with function_list := L } else f) a
      = getAttr f a := by
  by_cases h : a = "sample" <;> simp [h, getAttr_update_fl]

theorem target_ite_fl (f : FFrame) (L : List ReplayEntry) (a : String) :
    (if a = "sample" then { f with function_list := L } else f).target = f.target := by
  by_cases h : a = "sample" <;> simp [h]

theorem lagStep_extendsFrame {d : DF} (hier : List String) (dt : String)
    (feats : List String) (attrib : String) (d0 : DF) (st : FFrame) (lag : Int)
    (hwf : ∀ r ∈ d.rows, r.length = d.cols.length)
    (hst : extendsFrame d (getAttr st attrib))
    (hnames : ∀ ft ∈ feats, ¬ (ft ++ "_lag" ++ toString lag) ∈ d.cols) :
    extendsFrame d (getAttr (lagStep hier dt feats attrib d0 st lag) attrib) := by
  unfold lagStep
  rw [getAttr_setAttr]
  apply joinNewColumns_extendsFrame hwf hst
  intro nm hnm
  rcases List.mem_map.mp hnm with ⟨ft, hft, rfl⟩
  exact hnames ft hft

theorem statStep_ok_extends {d : DF} (aggInterp : String → List Rat → Rat)
    (features aggregations : List String) (lag min_periods : Int)
    (momentums percentages : Bool) (attrib : String) (gname : Option String)
    (gcols : List String) (dt : String) (pdata : DF) (ceilPow : Int → Int)
    (st : FFrame) (w : Int)
    (hwf : ∀ r ∈ d.rows, r.length = d.cols.length)
    (hmom : momentums = true → aggregations.contains ("mean") = true)
    (hperc : percentages = true → aggregations.contains ("sum") = true)
    (hst : extendsFrame d (getAttr st attrib))
    (hfresh : ∀ nm ∈ statWindowNames features aggregations lag gname w, ¬ nm ∈ d.cols) :
    ∃ st', statStep aggInterp features aggregations lag min_periods momentums
        percentages attrib gname gcols dt pdata ceilPow st w = Except.ok st'
      ∧ extendsFrame d (getAttr st' attrib) := by
  simp only [statWindowNames] at hfresh
  have hf1 : ∀ nm ∈ _get_transformed_column_names
      (features.flatMap (fun ft => aggregations.map (fun a => ft ++ "_" ++ a)))
      w lag gname "", ¬ nm ∈ d.cols :=
    fun nm h => hfresh nm (List.mem_append.mpr (Or.inl (List.mem_append.mpr (Or.inl h))))
  have hf2 : ∀ nm ∈ (_get_transformed_column_names
      (features.flatMap (fun ft => aggregations.map (fun a => ft ++ "_" ++ a)))
      w lag gname "").filter (fun c => containsSubstr c ("_mean_")),
      ¬ (nm ++ "_momentum") ∈ d.cols :=
    fun nm h => hfresh _ (List.mem_append.mpr (Or.inl (List.mem_append.mpr
      (Or.inr (List.mem_map_of_mem _ h)))))
  have hf3 : ∀ nm ∈ (_get_transformed_column_names
      (features.flatMap (fun ft => aggregations.map (fun a => ft ++ "_" ++ a)))
      w lag gname "").filter (fun c => containsSubstr c ("_sum_")),
      ¬ (nm ++ "_perc") ∈ d.cols :=
    fun nm h => hfresh _ (List.mem_append.mpr (Or.inr (List.mem_map_of_mem _ h)))
  unfold statStep
  cases momentums with
  | false =>
      rw [if_neg (by simp)]
      cases percentages with
      | false =>
          rw [if_neg (by simp)]
          refine ⟨_, rfl, ?_⟩
          simp only [Bool.false_eq_true, if_false, eq_self_iff_true, if_true,
            getAttr_setAttr]
          exact joinNewColumns_extendsFrame hwf hst hf1
      | true =>
          have hsum : ("sum" : String) ∈ aggregations := by simpa using hperc rfl
          rw [if_neg (by simp [hsum])]
          refine ⟨_, rfl, ?_⟩
          simp only [Bool.false_eq_true, if_false, eq_self_iff_true, if_true,
            getAttr_setAttr]
          apply ratioBlock_extendsFrame _ _ _ _ hwf _ hf3
          try simp only [getAttr_setAttr]
          exact joinNewColumns_extendsFrame hwf hst hf1
  | true =>
      have hmean : ("mean" : String) ∈ aggregations := by simpa using hmom rfl
      rw [if_neg (by simp [hmean])]
      cases percentages with
      | false =>
          rw [if_neg (by simp)]
          refine ⟨_, rfl, ?_⟩
          simp only [Bool.false_eq_true, if_false, eq_self_iff_true, if_true,
            getAttr_setAttr]
          apply ratioBlock_extendsFrame _ _ _ _ hwf _ hf2
          try simp only [getAttr_setAttr]
          exact joinNewColumns_extendsFrame hwf hst hf1
      | true =>
          have hsum : ("sum" : String) ∈ aggregations := by simpa using hperc rfl
          rw [if_neg (by simp [hsum])]
          refine ⟨_, rfl, ?_⟩
          simp only [Bool.false_eq_true, if_false, eq_self_iff_true, if_true,
            getAttr_setAttr]
          apply ratioBlock_extendsFrame _ _ _ _ hwf _ hf3
          try simp only [getAttr_setAttr]
          apply ratioBlock_extendsFrame _ _ _ _ hwf _ hf2
          try simp only [getAttr_setAttr]
          exact joinNewColumns_extendsFrame hwf hst hf1

theorem statFold_ok_extends {d : DF} (aggInterp : String → List Rat → Rat)
    (features aggregations : List String) (lag min_periods : Int)
    (momentums percentages : Bool) (attrib : String) (gname : Option String)
    (gcols : List String) (dt : String) (pdata : DF) (ceilPow : Int → Int)
    (hwf : ∀ r ∈ d.rows, r.length = d.cols.length)
    (hmom : momentums = true → aggregations.contains ("mean") = true)
    (hperc : percentages = true → aggregations.contains ("sum") = true) :
    ∀ (ws : List Int) (st : FFrame), extendsFrame d (getAttr st attrib) →
    (∀ w ∈ ws, ∀ nm ∈ statWindowNames features aggregations lag gname w, ¬ nm ∈ d.cols) →
    ∃ st', ws.foldlM (statStep aggInterp features aggregations lag min_periods
        momentums percentages attrib gname gcols dt pdata ceilPow) st = Except.ok st'
      ∧ extendsFrame d (getAttr st' attrib) := by
  intro ws
  induction ws with
  | nil => intro st hst _; exact ⟨st, rfl, hst⟩
  | cons w tl ih =>
      intro st hst hfr
      obtain ⟨st1, hok1, hext1⟩ := statStep_ok_extends aggInterp features aggregations
        lag min_periods momentums percentages attrib gname gcols dt pdata ceilPow st w
        hwf hmom hperc hst (hfr w (List.mem_cons_self w tl))
      obtain ⟨st', hok2, hext2⟩ := ih st1 hext1
        (fun w2 hw2 => hfr w2 (List.mem_cons_of_mem w hw2))
      refine ⟨st', ?_, hext2⟩
      rw [List.foldlM_cons, hok1]
      exact hok2

theorem ewmaStep_extendsFrame {d : DF} (features : List String) (lag : Int)
    (min_periods : Option Int) (attrib : String) (gname : Option String)
    (gcols : List String) (dt : String) (data : DF) (ceilPow : Int → Int)
    (crossovers : Bool) (acc : FFrame × List DF) (w : Int)
    (hwf : ∀ r ∈ d.rows, r.length = d.cols.length)
    (hacc : extendsFrame d (getAttr acc.1 attrib))
    (hfresh : ∀ nm ∈ ewmaWindowNames features lag gname w, ¬ nm ∈ d.cols) :
    extendsFrame d (getAttr (ewmaStep features lag min_periods attrib gname gcols
      dt data ceilPow crossovers acc w).1 attrib) := by
  simp only [ewmaWindowNames] at hfresh
  unfold ewmaStep
  simp only [getAttr_setAttr]
  exact joinNewColumns_extendsFrame hwf hacc hfresh

theorem ewmaFold_snd (features : List String) (lag : Int) (min_periods : Option Int)
    (attrib : String) (gname : Option String) (gcols : List String) (dt : String)
    (data : DF) (ceilPow : Int → Int) :
    ∀ (ws : List Int) (acc : FFrame × List DF),
      (ws.foldl (ewmaStep features lag min_periods attrib gname gcols dt data
        ceilPow true) acc).2
        = acc.2 ++ ws.map (ewmaCalcsOf features lag min_periods gname gcols dt data ceilPow) := by
  intro ws
  induction ws with
  | nil => intro acc; simp
  | cons w tl ih =>
      intro acc
      rw [List.foldl_cons, ih]
      have hstep : (ewmaStep features lag min_periods attrib gname gcols dt data
          ceilPow true acc w).2
          = acc.2 ++ [ewmaCalcsOf features lag min_periods gname gcols dt data ceilPow w] := rfl
      rw [hstep, List.append_assoc]
      rfl

theorem ewmaCrossovers_extendsFrame {d : DF} (gcols : List String)
    (pairs : List (DF × DF)) (data2 : DF)
    (hwf : ∀ r ∈ d.rows, r.length = d.cols.length)
    (hdata : extendsFrame d data2)
    (hfresh : ∀ pr ∈ pairs, ∀ nm ∈ pr.1.cols.drop (gcols.length + 1),
      ¬ (nm ++ "_cross"
          ++ findNumber ((pr.2.cols.drop (gcols.length + 1)).getD 0 "") ("roll")) ∈ d.cols) :
    extendsFrame d (ewmaCrossovers gcols pairs data2) := by
  unfold ewmaCrossovers
  apply foldl_extends_of_step d _
    (fun pr : DF × DF => ∀ nm ∈ pr.1.cols.drop (gcols.length + 1),
      ¬ (nm ++ "_cross"
          ++ findNumber ((pr.2.cols.drop (gcols.length + 1)).getD 0 "") ("roll")) ∈ d.cols)
    ?_ pairs data2 hdata hfresh
  intro acc pr hacc hpr
  apply foldl_extends_of_step d _
    (fun q : String × String => ¬ (q.1 ++ "_cross"
      ++ findNumber ((pr.2.cols.drop (gcols.length + 1)).getD 0 "") ("roll")) ∈ d.cols)
    ?_ _ acc hacc ?_
  · intro acc2 q hacc2 hq
    exact setCol_extendsFrame hwf hacc2 hq _
  · intro q hqmem
    exact hpr q.1 (List.of_mem_zip hqmem).1

theorem prtStep_extendsFrame {d : DF} (features : List String)
    (lag min_periods threshold : Int) (cmp : Val → Rat → Val) (attrib : String)
    (gname : Option String) (gcols : List String) (dt : String)
    (ceilPow : Int → Int) (desig : String) (acc : FFrame × DF) (w : Int)
    (hwf : ∀ r ∈ d.rows, r.length = d.cols.length)
    (hacc : extendsFrame d (getAttr acc.1 attrib))
    (hfresh : ∀ nm ∈ _get_transformed_column_names features w lag gname desig,
      ¬ nm ∈ d.cols) :
    extendsFrame d (getAttr (prtStep features lag min_periods threshold cmp attrib
      gname gcols dt ceilPow desig acc w).1 attrib) := by
  unfold prtStep
  simp only [getAttr_setAttr]
  exact joinNewColumns_extendsFrame hwf hacc hfresh

theorem statFold_result {d : DF} (aggInterp : String → List Rat → Rat)
    (features aggregations : List String) (lag min_periods : Int)
    (momentums percentages : Bool) (attrib : String) (gname : Option String)
    (gcols : List String) (dt : String) (pdata : DF) (ceilPow : Int → Int)
    (ws : List Int) (st : FFrame)
    (hwf : ∀ r ∈ d.rows, r.length = d.cols.length)
    (hmom : momentums = true → aggregations.contains ("mean") = true)
    (hperc : percentages = true → aggregations.contains ("sum") = true)
    (hinit : extendsFrame d (getAttr st attrib))
    (hfr : ∀ w ∈ ws, ∀ nm ∈ statWindowNames features aggregations lag gname w,
      ¬ nm ∈ d.cols) :
    isOkResult (ws.foldlM (statStep aggInterp features aggregations lag min_periods
      momentums percentages attrib gname gcols dt pdata ceilPow) st) = true
    ∧ extendsFrame d (getAttr (outState (ws.foldlM (statStep aggInterp features
        aggregations lag min_periods momentums percentages attrib gname gcols dt
        pdata ceilPow) st)) attrib) := by
  obtain ⟨st', hok, hext⟩ := statFold_ok_extends aggInterp features aggregations lag
    min_periods momentums percentages attrib gname gcols dt pdata ceilPow hwf hmom
    hperc ws st hinit hfr
  rw [hok]
  exact ⟨rfl, hext⟩

theorem ewma_block_extends {d : DF} (features : List String) (lag : Int)
    (min_periods : Option Int) (attrib : String) (gname : Option String)
    (gcols : List String) (dt : String) (data : DF) (ceilPow : Int → Int)
    (crossovers : Bool) (ws : List Int) (init : FFrame)
    (hwf : ∀ r ∈ d.rows, r.length = d.cols.length)
    (hinit : extendsFrame d (getAttr init attrib))
    (hf1 : ∀ w ∈ ws, ∀ nm ∈ ewmaWindowNames features lag gname w, ¬ nm ∈ d.cols)
    (hf2 : ∀ nm ∈ ewmaCrossNames features lag gname ws, ¬ nm ∈ d.cols) :
    extendsFrame d (getAttr
      (if crossovers = true then
        setAttr (ws.foldl (ewmaStep features lag min_periods attrib gname gcols dt
            data ceilPow crossovers) (init, [])).1 attrib
          (ewmaCrossovers gcols
            (splitPairwise (ws.foldl (ewmaStep features lag min_periods attrib gname
              gcols dt data ceilPow crossovers) (init, [])).2)
            (getAttr (ws.foldl (ewmaStep features lag min_periods attrib gname gcols
              dt data ceilPow crossovers) (init, [])).1 attrib))
      else (ws.foldl (ewmaStep features lag min_periods attrib gname gcols dt data
        ceilPow crossovers) (init, [])).1) attrib) := by
  have hfold : extendsFrame d (getAttr (ws.foldl (ewmaStep features lag min_periods
      attrib gname gcols dt data ceilPow crossovers) (init, [])).1 attrib) :=
    foldl_acc_extends d (fun acc : FFrame × List DF => getAttr acc.1 attrib) _
      (fun w => ∀ nm ∈ ewmaWindowNames features lag gname w, ¬ nm ∈ d.cols)
      (fun acc w hacc hw => ewmaStep_extendsFrame features lag min_periods attrib
        gname gcols dt data ceilPow crossovers acc w hwf hacc hw) ws (init, []) hinit hf1
  cases crossovers with
  | false => simpa using hfold
  | true =>
      rw [if_pos rfl, getAttr_setAttr]
      apply ewmaCrossovers_extendsFrame gcols _ _ hwf hfold
      intro pr hpr nm hnm
      rw [ewmaFold_snd, List.nil_append] at hpr
      unfold splitPairwise at hpr
      rw [← List.map_drop, List.zip_map] at hpr
      rcases List.mem_map.mp hpr with ⟨p, hp, rfl⟩
      obtain ⟨w1, w2⟩ := p
      simp only [Prod.map] at hnm ⊢
      have hcols1 : (ewmaCalcsOf features lag min_periods gname gcols dt data
          ceilPow w1).cols.drop (gcols.length + 1)
          = ewmaWindowNames features lag gname w1 := by
        simp only [ewmaCalcsOf, groupedApplyEwm, ewmaWindowNames]
        exact List.drop_left' (by simp)
      have hcols2 : (ewmaCalcsOf features lag min_periods gname gcols dt data
          ceilPow w2).cols.drop (gcols.length + 1)
          = ewmaWindowNames features lag gname w2 := by
        simp only [ewmaCalcsOf, groupedApplyEwm, ewmaWindowNames]
        exact List.drop_left' (by simp)
      rw [hcols1] at hnm
      rw [hcols2]
      apply hf2
      unfold ewmaCrossNames
      exact List.mem_flatMap.mpr ⟨(w1, w2), hp,
        List.mem_map.mpr ⟨nm, hnm, rfl⟩⟩

theorem prt_fold_extends {d : DF} (features : List String)
    (lag min_periods threshold : Int) (cmp : Val → Rat → Val) (attrib : String)
    (gname : Option String) (gcols : List String) (dt : String)
    (ceilPow : Int → Int) (desig : String) (ws : List Int) (acc : FFrame × DF)
    (hwf : ∀ r ∈ d.rows, r.length = d.cols.length)
    (hinit : extendsFrame d (getAttr acc.1 attrib))
    (hfr : ∀ w ∈ ws, ∀ nm ∈ _get_transformed_column_names features w lag gname desig,
      ¬ nm ∈ d.cols) :
    extendsFrame d (getAttr (ws.foldl (prtStep features lag min_periods threshold
      cmp attrib gname gcols dt ceilPow desig) acc).1 attrib) :=
  foldl_acc_extends d (fun acc : FFrame × DF => getAttr acc.1 attrib) _
    (fun w => ∀ nm ∈ _get_transformed_column_names features w lag gname desig,
      ¬ nm ∈ d.cols)
    (fun acc w hacc hw => prtStep_extendsFrame features lag min_periods threshold cmp
      attrib gname gcols dt ceilPow desig acc w hwf hacc hw) ws acc hinit hfr

/-- Whether a prophet call result is a ValueError. -/
def isNullTargetError (r : Except (PyErr × FFrame) (FFrame × Option (DF × DF))) : Bool :=
  match r with
  | Except.error (PyErr.valueError _, _) => true
  | _ => false

/-! ### Claim theorems -/

/-- C3: for every feature list, window, lag, grouper name and designator,
the to_dict=False branch of _get_transformed_column_names returns, in
order, one name per feature of exactly the form the spec states
(specTransformedName), and the to_dict=True branch maps each feature to
that same name. -/
theorem c3_transformed_column_names (features : List String) (window lag : Int)
    (grouper_name : Option String) (designator : String) :
    _get_transformed_column_names features window lag grouper_name designator
      = features.map (specTransformedName window lag grouper_name designator)
    ∧ ∀ ft ∈ features,
        (_get_transformed_column_names_dict features window lag grouper_name
            designator).lookup ft
          = some (specTransformedName window lag grouper_name designator ft) := by
  constructor
  · unfold _get_transformed_column_names
    exact List.map_congr_left (fun ft _ =>
      transformedName_eq_spec window lag grouper_name designator ft)
  · intro ft hft
    unfold _get_transformed_column_names_dict
    rw [lookup_map_pair _ _ _ (mem_dedupStr hft), transformedName_eq_spec]

/-- Witness for C3 at a concrete feature list. -/
theorem c3_transformed_column_names_witness :
    ("sales" : String) ∈ ["sales"]
    ∧ (_get_transformed_column_names_dict ["sales"] 7 1 none ("_ewma")).lookup ("sales")
        = some (specTransformedName 7 1 none ("_ewma") ("sales")) :=
  ⟨by decide,
   (c3_transformed_column_names ["sales"] 7 1 none ("_ewma")).2 ("sales") (by decide)⟩

/-- C10: _calc_MAPA forwards a weights keyword to _calc_MAPE, whose
parameters are only actuals and predictions, so every call raises a
TypeError and the documented 1 - MAPE result is never produced. -/
theorem c10_mapa_always_type_error (actuals predictions : List Rat)
    (weights : Option (List Rat)) :
    _calc_MAPA actuals predictions weights
      = Except.error (PyErr.typeError ("_calc_MAPE() got an unexpected keyword argument")) :=
  rfl

/-- C4: a calc_ewma call with crossovers set and at most one window raises
the insufficient-windows ValueError, and does so before any mutation: the
state carried out of the raise is exactly the input state, so the data
attribute and function_list are unchanged. -/
theorem c4_ewma_crossover_validation (f : FFrame) (features : List String)
    (windows : List Int) (lag : Int) (groupers : Option Groupers)
    (min_periods : Option Int) (attrib : String)
    (aggInterp : String → List Rat → Rat) (ceilPow : Int → Int)
    (hw : windows.length ≤ 1) :
    calc_ewma f features windows lag groupers min_periods true attrib aggInterp ceilPow
      = Except.error (PyErr.valueError
          ("Please pass 2+ windows if you want to calculate crossovers."), f) := by
  unfold calc_ewma
  simp [hw]

/-- Witness for C4 at a single-window call on a concrete frame. -/
theorem c4_ewma_crossover_validation_witness :
    (([7] : List Int).length ≤ 1)
    ∧ calc_ewma exFrame ["sales"] [7] 1 none none true ("sample")
        (fun _ xs => xs.sum) (fun w => w)
        = Except.error (PyErr.valueError
            ("Please pass 2+ windows if you want to calculate crossovers."), exFrame) :=
  ⟨by decide,
   c4_ewma_crossover_validation exFrame ["sales"] [7] 1 none none ("sample")
     (fun _ xs => xs.sum) (fun w => w) (by decide)⟩

/-- C6: calc_prophet_predictions raises its ValueError exactly when the
target column of the training frame (the passed train_df, or self.sample
when none is passed) contains at least one null; with no nulls the
validation passes and no such exception is raised. -/
theorem c6_prophet_null_check (f : FFrame) (train_df test_df : Option DF)
    (args : List Val) (kwargs : List (String × Val))
    (prophetTrain : DF → DF) (prophetTest : DF → DF → DF) :
    isNullTargetError (calc_prophet_predictions f train_df test_df args kwargs
        prophetTrain prophetTest) = true
      ↔ 0 < (((train_df.getD f.sample).getCol f.target).filter Val.isNull).length := by
  unfold calc_prophet_predictions
  rcases train_df with _ | d
  · by_cases h : 0 < ((f.sample.getCol f.target).filter Val.isNull).length
    · simp [h, isNullTargetError]
    · rcases test_df with _ | t <;> simp [h, isNullTargetError]
  · by_cases h : 0 < ((d.getCol f.target).filter Val.isNull).length
    · simp [h, isNullTargetError]
    · rcases test_df with _ | t <;> simp [h, isNullTargetError]

/-- C5: calc_percent_relative_to_threshold raises an AssertionError from the
operator check exactly when its operator is not one of "greater", "less",
"equal" or "not equal"; for each of the four the check passes and the call
returns, and operator_dict ties each of the four names to the corresponding
pandas comparison (gt, lt, eq, ne), which the body applies against the
threshold. -/
theorem c5_threshold_operator_check :
    (∀ (f : FFrame) (features : List String) (windows : List Int) (lag : Int)
        (groupers : Option Groupers) (min_periods threshold : Int) (op attrib : String)
        (aggInterp : String → List Rat → Rat) (ceilPow : Int → Int),
      isAssertionError (calc_percent_relative_to_threshold f features windows lag
          groupers min_periods threshold op attrib aggInterp ceilPow) = true
        ↔ ¬ op ∈ valid_operators)
    ∧ (∀ (f : FFrame) (features : List String) (windows : List Int) (lag : Int)
        (groupers : Option Groupers) (min_periods threshold : Int) (op attrib : String)
        (aggInterp : String → List Rat → Rat) (ceilPow : Int → Int),
      op ∈ valid_operators →
        isOkResult (calc_percent_relative_to_threshold f features windows lag
          groupers min_periods threshold op attrib aggInterp ceilPow) = true)
    ∧ operator_dict.lookup ("greater") = some pdGt
    ∧ operator_dict.lookup ("less") = some pdLt
    ∧ operator_dict.lookup ("equal") = some pdEq
    ∧ operator_dict.lookup ("not equal") = some pdNe := by
  refine ⟨?_, ?_, rfl, rfl, rfl, rfl⟩
  · intro f features windows lag groupers min_periods threshold op attrib aggInterp ceilPow
    unfold calc_percent_relative_to_threshold
    cases hl : operator_dict.lookup op with
    | none =>
        simp [isAssertionError, (operator_dict_lookup_none_iff op).mp hl]
    | some cmp =>
        have hmem : op ∈ valid_operators := by
          by_contra hmem
          rw [(operator_dict_lookup_none_iff op).mpr hmem] at hl
          cases hl
        simp [isAssertionError, hmem]
  · intro f features windows lag groupers min_periods threshold op attrib aggInterp ceilPow hop
    unfold calc_percent_relative_to_threshold
    cases hl : operator_dict.lookup op with
    | none => exact absurd hop ((operator_dict_lookup_none_iff op).mp hl)
    | some cmp => simp [isOkResult]

/-- Witness for C5 at the operator "greater" on a concrete frame. -/
theorem c5_threshold_operator_check_witness :
    ("greater" : String) ∈ valid_operators
    ∧ isOkResult (calc_percent_relative_to_threshold exFrame [] [3] 1 none 1 0
        ("greater") ("sample") (fun _ xs => xs.sum) (fun w => w)) = true :=
  ⟨by decide,
   c5_threshold_operator_check.2.1 exFrame [] [3] 1 none 1 0 ("greater") ("sample")
     (fun _ xs => xs.sum) (fun w => w) (by decide)⟩

theorem lagStep_cols_mono (hier : List String) (dt : String) (feats : List String)
    (attrib : String) (d0 : DF) (st : FFrame) (lag : Int) {c : String}
    (h : c ∈ (getAttr st attrib).cols) :
    c ∈ (getAttr (lagStep hier dt feats attrib d0 st lag) attrib).cols := by
  unfold lagStep
  rw [getAttr_setAttr]
  exact joinNewColumns_cols_mono h

theorem lagStep_cols_mem (hier : List String) (dt : String) (feats : List String)
    (attrib : String) (d0 : DF) (st : FFrame) (lag : Int) {ft : String}
    (h : ft ∈ feats) :
    (ft ++ "_lag" ++ toString lag)
      ∈ (getAttr (lagStep hier dt feats attrib d0 st lag) attrib).cols := by
  unfold lagStep
  rw [getAttr_setAttr]
  exact mem_joinNewColumns_cols
    (List.mem_map_of_mem (fun x => x ++ "_lag" ++ toString lag) h)

theorem lagFold_cols_mono (hier : List String) (dt : String) (feats : List String)
    (attrib : String) (d0 : DF) (lags : List Int) :
    ∀ (st : FFrame) (c : String), c ∈ (getAttr st attrib).cols →
      c ∈ (getAttr (lags.foldl (lagStep hier dt feats attrib d0) st) attrib).cols := by
  induction lags with
  | nil => intro st c h; exact h
  | cons l ls ih =>
      intro st c h
      exact ih _ _ (lagStep_cols_mono hier dt feats attrib d0 st l h)

theorem lagFold_cols_mem (hier : List String) (dt : String) (feats : List String)
    (attrib : String) (d0 : DF) (lags : List Int) :
    ∀ (st : FFrame) (l : Int), l ∈ lags → ∀ ft ∈ feats,
      (ft ++ "_lag" ++ toString l)
        ∈ (getAttr (lags.foldl (lagStep hier dt feats attrib d0) st) attrib).cols := by
  induction lags with
  | nil => intro st l h; cases h
  | cons x xs ih =>
      intro st l h ft hft
      rcases List.mem_cons.mp h with h | h
      · subst h
        exact lagFold_cols_mono hier dt feats attrib d0 xs _ _
          (lagStep_cols_mem hier dt feats attrib d0 st l hft)
      · exact ih _ _ h ft hft

/-- C7: lag_features raises an AssertionError exactly when some lag is below
one; when every lag is at least one the assertion passes and one lagged
column per (feature, lag) pair, named feature_lagN, is present in the result
frame. -/
theorem c7_lag_features_assertion :
    (∀ (f : FFrame) (features : List String) (lags : List Int) (attrib : String),
      isAssertionError (lag_features f features lags attrib) = true
        ↔ ∃ l ∈ lags, l < 1)
    ∧ (∀ (f : FFrame) (features : List String) (lags : List Int) (attrib : String),
        (∀ l ∈ lags, 1 ≤ l) →
        ∀ ft ∈ features, ∀ l ∈ lags,
          (ft ++ "_lag" ++ toString l)
            ∈ (getAttr (outState (lag_features f features lags attrib)) attrib).cols) := by
  constructor
  · intro f features lags attrib
    unfold lag_features
    by_cases hc : (lags.filter (fun l => l < 1)) = []
    · rw [if_neg (not_not_intro hc)]
      simp only [isAssertionError]
      constructor
      · intro h; simp at h
      · rintro ⟨l, hl, hlt⟩
        have h2 := List.filter_eq_nil_iff.mp hc l hl
        simp [hlt] at h2
    · rw [if_pos hc]
      simp only [isAssertionError]
      constructor
      · intro _
        rcases List.exists_mem_of_ne_nil _ hc with ⟨l, hl⟩
        exact ⟨l, (List.mem_filter.mp hl).1, by simpa using (List.mem_filter.mp hl).2⟩
      · intro _; trivial
  · intro f features lags attrib hpos ft hft l hl
    unfold lag_features
    have hc : (lags.filter (fun l => l < 1)) = [] := by
      apply List.filter_eq_nil_iff.mpr
      intro a ha
      simpa using not_lt.mpr (hpos a ha)
    rw [if_neg (not_not_intro hc)]
    simp only [outState]
    exact lagFold_cols_mem _ _ _ _ _ lags _ l hl ft hft

/-- C9: validation is not atomic with the replay bookkeeping: a sample-call
to lag_features with a lag below one, or to
calc_percent_relative_to_threshold with an invalid operator, or a
calc_prophet_predictions call without a train_df whose sample target
contains a null, raises only after its replay entry is appended, so the
state carried out of the raise has function_list (respectively
ensemble_list) exactly one entry longer than before the call. -/
theorem c9_validation_after_replay_append :
    (∀ (f : FFrame) (features : List String) (lags : List Int),
      (∃ l ∈ lags, l < 1) →
      lag_features f features lags ("sample")
        = Except.error (PyErr.assertionError
            ("Please ensure all lags are greater than 0 to avoid leaking data."),
            { f with function_list := f.function_list
                ++ [ReplayEntry.lag_features features lags] }))
    ∧ (∀ (f : FFrame) (features : List String) (windows : List Int) (lag : Int)
          (groupers : Option Groupers) (min_periods threshold : Int) (op : String)
          (aggInterp : String → List Rat → Rat) (ceilPow : Int → Int),
        ¬ op ∈ valid_operators →
        calc_percent_relative_to_threshold f features windows lag groupers
            min_periods threshold op ("sample") aggInterp ceilPow
          = Except.error (PyErr.assertionError
              ("Operator should be one of dict_keys(['greater', 'less', 'equal', 'not equal'])"),
              { f with function_list := f.function_list
                  ++ [ReplayEntry.calc_percent_relative_to_threshold features windows
                        lag groupers min_periods threshold op] }))
    ∧ (∀ (f : FFrame) (test_df : Option DF) (args : List Val)
          (kwargs : List (String × Val)) (prophetTrain : DF → DF)
          (prophetTest : DF → DF → DF),
        0 < ((f.sample.getCol f.target).filter Val.isNull).length →
        calc_prophet_predictions f none test_df args kwargs prophetTrain prophetTest
          = Except.error (PyErr.valueError
              ("DataFrame's target column contains nulls values. Please fix before building Prophet forecasts."),
              { f with ensemble_list := f.ensemble_list
                  ++ [ReplayEntry.calc_prophet_predictions args kwargs] })) := by
  refine ⟨?_, ?_, ?_⟩
  · intro f features lags hex
    have hne : (lags.filter (fun l => l < 1)) ≠ [] := by
      rcases hex with ⟨l, hl, hlt⟩
      exact List.ne_nil_of_mem (List.mem_filter.mpr ⟨hl, by simpa using hlt⟩)
    unfold lag_features
    simp [hne]
  · intro f features windows lag groupers min_periods threshold op aggInterp ceilPow hop
    unfold calc_percent_relative_to_threshold
    rw [(operator_dict_lookup_none_iff op).mpr hop]
    simp
  · intro f test_df args kwargs prophetTrain prophetTest hnull
    unfold calc_prophet_predictions
    simp [hnull]

/-- C1 counterexample: a calc_ewma call with attribute "sample" that fails
the crossover-windows validation raises before the append, so its
function_list is left unchanged (still empty) although the claim, quantified
over every sample-attribute call, requires exactly one appended entry. -/
theorem c1_counterexample :
    (outState (calc_ewma exFrame ["sales"] [7] 1 none none true ("sample")
        (fun _ xs => xs.sum) (fun w => w))).function_list = exFrame.function_list
    ∧ exFrame.function_list
        ≠ exFrame.function_list
            ++ [ReplayEntry.calc_ewma ["sales"] [7] 1 none none true] := by
  constructor
  · rfl
  · decide

/-- C1 (amended): every sample-attribute call to one of the eight transforms
appends exactly one replay entry holding the function and its re-application
parameters, and any other attribute leaves function_list unchanged (both
summarized by replayAfter), even when the call later raises — except a
calc_ewma call that fails the crossover-windows validation, which raises
before the append and leaves function_list unchanged. -/
theorem c1_replay_bookkeeping :
    (∀ (f : FFrame) (joiner : String) (year : Int) (categories : List String)
        (level attrib : String) (demo : DF),
      (outState (join_demographics f joiner year categories level attrib demo)).function_list
        = replayAfter attrib f.function_list
            (ReplayEntry.join_demographics year categories level joiner))
    ∧ (∀ (f : FFrame) (ilz : Bool) (attrib : String),
      (outState (calc_days_since_release f ilz attrib)).function_list
        = replayAfter attrib f.function_list (ReplayEntry.calc_days_since_release ilz))
    ∧ (∀ (f : FFrame) (dl : List String) (attrib : String) (dtOp : String → Val → Val),
      (outState (calc_datetime_features f dl attrib dtOp)).function_list
        = replayAfter attrib f.function_list (ReplayEntry.calc_datetime_features dl))
    ∧ (∀ (f : FFrame) (features : List String) (lags : List Int) (attrib : String),
      (outState (lag_features f features lags attrib)).function_list
        = replayAfter attrib f.function_list (ReplayEntry.lag_features features lags))
    ∧ (∀ (f : FFrame) (features : List String) (windows : List Int)
        (aggregations : List String) (lag : Int) (groupers : Option Groupers)
        (min_periods : Int) (momentums percentages : Bool) (attrib : String)
        (aggInterp : String → List Rat → Rat) (ceilPow : Int → Int),
      (outState (calc_statistical_features f features windows aggregations lag groupers
          min_periods momentums percentages attrib aggInterp ceilPow)).function_list
        = replayAfter attrib f.function_list
            (ReplayEntry.calc_statistical_features features windows aggregations lag
              groupers min_periods momentums percentages))
    ∧ (∀ (f : FFrame) (features : List String) (windows : List Int) (lag : Int)
        (groupers : Option Groupers) (min_periods : Option Int) (crossovers : Bool)
        (attrib : String) (aggInterp : String → List Rat → Rat) (ceilPow : Int → Int),
      ¬ (crossovers = true ∧ windows.length ≤ 1) →
      (outState (calc_ewma f features windows lag groupers min_periods crossovers
          attrib aggInterp ceilPow)).function_list
        = replayAfter attrib f.function_list
            (ReplayEntry.calc_ewma features windows lag groupers min_periods crossovers))
    ∧ (∀ (f : FFrame) (features : List String) (windows : List Int) (lag : Int)
        (groupers : Option Groupers) (min_periods : Option Int)
        (attrib : String) (aggInterp : String → List Rat → Rat) (ceilPow : Int → Int),
      windows.length ≤ 1 →
      (outState (calc_ewma f features windows lag groupers min_periods true
          attrib aggInterp ceilPow)).function_list = f.function_list)
    ∧ (∀ (f : FFrame) (feature : Option String) (lag : Int)
        (groupers : Option Groupers) (attrib : String),
      (outState (calc_percent_change f feature lag groupers attrib)).function_list
        = replayAfter attrib f.function_list
            (ReplayEntry.calc_percent_change feature lag groupers))
    ∧ (∀ (f : FFrame) (features : List String) (windows : List Int) (lag : Int)
        (groupers : Option Groupers) (min_periods threshold : Int) (op attrib : String)
        (aggInterp : String → List Rat → Rat) (ceilPow : Int → Int),
      (outState (calc_percent_relative_to_threshold f features windows lag groupers
          min_periods threshold op attrib aggInterp ceilPow)).function_list
        = replayAfter attrib f.function_list
            (ReplayEntry.calc_percent_relative_to_threshold features windows lag
              groupers min_periods threshold op)) := by
  refine ⟨?_, ?_, ?_, ?_, ?_, ?_, ?_, ?_, ?_⟩
  · intro f joiner year categories level attrib demo
    unfold join_demographics
    by_cases ha : attrib = "sample" <;>
      simp [ha, replayAfter, outState, setAttr_function_list]
  · intro f ilz attrib
    unfold calc_days_since_release
    by_cases ha : attrib = "sample" <;>
      simp [ha, replayAfter, outState, setAttr_function_list]
  · intro f dl attrib dtOp
    unfold calc_datetime_features assert_features_in_list
    by_cases hassert : (dl.all fun ft => datetime_ops_keys.contains ft) = true
    · rw [if_pos hassert]
      by_cases ha : attrib = "sample" <;>
        simp [ha, replayAfter, outState, setAttr_function_list]
    · rw [if_neg hassert]
      by_cases ha : attrib = "sample" <;>
        simp [ha, replayAfter, outState, setAttr_function_list]
  · intro f features lags attrib
    unfold lag_features
    by_cases hc : (lags.filter (fun l => l < 1)) = []
    · rw [if_neg (not_not_intro hc)]
      simp only [outState]
      rw [lagFold_function_list]
      by_cases ha : attrib = "sample" <;> simp [ha, replayAfter]
    · rw [if_pos hc]
      simp only [outState]
      by_cases ha : attrib = "sample" <;> simp [ha, replayAfter]
  · intro f features windows aggregations lag groupers min_periods momentums
      percentages attrib aggInterp ceilPow
    unfold calc_statistical_features
    rw [statFold_function_list]
    by_cases ha : attrib = "sample" <;> simp [ha, replayAfter]
  · intro f features windows lag groupers min_periods crossovers attrib aggInterp
      ceilPow hnc
    unfold calc_ewma
    rw [if_neg hnc]
    simp only [outState]
    rw [ite_setAttr_function_list, ewmaFold_function_list]
    by_cases ha : attrib = "sample" <;> simp [ha, replayAfter]
  · intro f features windows lag groupers min_periods attrib aggInterp ceilPow hw
    unfold calc_ewma
    rw [if_pos ⟨rfl, hw⟩]
    rfl
  · intro f feature lag groupers attrib
    unfold calc_percent_change
    by_cases ha : attrib = "sample" <;>
      simp [ha, replayAfter, outState, setAttr_function_list]
  · intro f features windows lag groupers min_periods threshold op attrib
      aggInterp ceilPow
    unfold calc_percent_relative_to_threshold
    cases hl : operator_dict.lookup op with
    | none =>
        simp only [outState]
        by_cases ha : attrib = "sample" <;> simp [ha, replayAfter]
    | some cmp =>
        simp only [outState]
        rw [prtFold_function_list]
        by_cases ha : attrib = "sample" <;> simp [ha, replayAfter]

/-- Witness for C1 at concrete calc_ewma calls, one passing and one failing
the crossover-windows validation. -/
theorem c1_replay_bookkeeping_witness :
    (¬ (true = true ∧ ([7, 14] : List Int).length ≤ 1))
    ∧ (outState (calc_ewma exFrame ["sales"] [7, 14] 1 none none true ("sample")
          (fun _ xs => xs.sum) (fun w => w))).function_list
        = replayAfter ("sample") exFrame.function_list
            (ReplayEntry.calc_ewma ["sales"] [7, 14] 1 none none true)
    ∧ (([7] : List Int).length ≤ 1)
    ∧ (outState (calc_ewma exFrame ["sales"] [7] 1 none none true ("sample")
          (fun _ xs => xs.sum) (fun w => w))).function_list
        = exFrame.function_list :=
  ⟨by decide,
   c1_replay_bookkeeping.2.2.2.2.2.1 exFrame ["sales"] [7, 14] 1 none none true
     ("sample") (fun _ xs => xs.sum) (fun w => w) (by decide),
   by decide,
   c1_replay_bookkeeping.2.2.2.2.2.2.1 exFrame ["sales"] [7] 1 none none
     ("sample") (fun _ xs => xs.sum) (fun w => w) (by decide)⟩

/-- C2 counterexample: calc_days_since_release with the default
ignore_leading_zeroes drops every row of a group whose target is never
positive — on a one-row frame whose only sale is zero, the call succeeds but
the resulting sample table is empty, so a pre-existing row is gone. -/
theorem c2_counterexample :
    (outState (calc_days_since_release zeroFrame true ("sample"))).sample.rows = []
    ∧ zeroFrame.sample.rows.length = 1 := by
  constructor
  · rfl
  · rfl

/-- Frame effect of calc_days_since_release: the call succeeds, the single
new column days_since_release is appended after every pre-existing column,
and every surviving row agrees with a pre-existing row on all pre-existing
columns. Stated for a frame without the two generated column names and with
well-formed rows. -/
theorem days_frame_effect (f : FFrame) (ilz : Bool) (attrib : String)
    (hfp : ¬ ("first_purchase_date") ∈ (getAttr f attrib).cols)
    (hds : ¬ ("days_since_release") ∈ (getAttr f attrib).cols)
    (hfph : ¬ ("first_purchase_date") ∈ f.hierarchy)
    (hwf : ∀ r ∈ (getAttr f attrib).rows,
      r.length = (getAttr f attrib).cols.length) :
    isOkResult (calc_days_since_release f ilz attrib) = true
    ∧ (getAttr (outState (calc_days_since_release f ilz attrib)) attrib).cols
        = (getAttr f attrib).cols ++ [("days_since_release")]
    ∧ ∀ r' ∈ (getAttr (outState (calc_days_since_release f ilz attrib)) attrib).rows,
        ∃ r ∈ (getAttr f attrib).rows,
          r'.take (getAttr f attrib).cols.length = r := by
  by_cases ha : attrib = "sample" <;>
    simp only [calc_days_since_release, outState, isOkResult, ha, if_true, if_false,
      getAttr, setAttr] at hfp hds hwf ⊢ <;>
    simp only [eq_self_iff_true, if_true, if_false] at * <;>
    refine ⟨trivial, (days_pipeline _ _ _ _ _ rfl hfp hds hfph hwf).1,
      (days_pipeline _ _ _ _ _ rfl hfp hds hfph hwf).2⟩

/-- C2 (amended): every feature-engineering transform only adds feature
columns to its attribute table, stated under the claim's presupposition that
the generated column names are new and the rows are well-formed. The six
non-merging transforms (calc_datetime_features, lag_features,
calc_statistical_features, calc_ewma, calc_percent_change,
calc_percent_relative_to_threshold) succeed whenever their validations pass
and extend the frame: pre-existing columns lead the column list, the row
count is unchanged, and every row keeps its original values on the
pre-existing columns. The two inner-merging transforms (join_demographics
and calc_days_since_release) also keep every pre-existing column in place,
with new columns appended, and every surviving row agrees with a
pre-existing row on all pre-existing columns — but they may drop rows, as
the counterexample shows for calc_days_since_release. -/
theorem c2_feature_transforms_frame_effect :
    (∀ (f : FFrame) (joiner : String) (year : Int) (categories : List String)
        (level attrib : String) (demo : DF),
      (∀ r ∈ (getAttr f attrib).rows, r.length = (getAttr f attrib).cols.length) →
      isOkResult (join_demographics f joiner year categories level attrib demo) = true
      ∧ restrictsFrame (getAttr f attrib)
          (getAttr (outState (join_demographics f joiner year categories level attrib
            demo)) attrib))
    ∧ (∀ (f : FFrame) (ilz : Bool) (attrib : String),
      ¬ ("first_purchase_date") ∈ (getAttr f attrib).cols →
      ¬ ("days_since_release") ∈ (getAttr f attrib).cols →
      ¬ ("first_purchase_date") ∈ f.hierarchy →
      (∀ r ∈ (getAttr f attrib).rows, r.length = (getAttr f attrib).cols.length) →
      isOkResult (calc_days_since_release f ilz attrib) = true
      ∧ (getAttr (outState (calc_days_since_release f ilz attrib)) attrib).cols
          = (getAttr f attrib).cols ++ [("days_since_release")]
      ∧ ∀ r' ∈ (getAttr (outState (calc_days_since_release f ilz attrib)) attrib).rows,
          ∃ r ∈ (getAttr f attrib).rows, r'.take (getAttr f attrib).cols.length = r)
    ∧ (∀ (f : FFrame) (dl : List String) (attrib : String) (dtOp : String → Val → Val),
      (dl.all (fun ft => datetime_ops_keys.contains ft)) = true →
      (∀ ft ∈ dl, ¬ ft ∈ (getAttr f attrib).cols) →
      (∀ r ∈ (getAttr f attrib).rows, r.length = (getAttr f attrib).cols.length) →
      isOkResult (calc_datetime_features f dl attrib dtOp) = true
      ∧ extendsFrame (getAttr f attrib)
          (getAttr (outState (calc_datetime_features f dl attrib dtOp)) attrib))
    ∧ (∀ (f : FFrame) (features : List String) (lags : List Int) (attrib : String),
      (∀ l ∈ lags, 1 ≤ l) →
      (∀ l ∈ lags, ∀ ft ∈ features,
        ¬ (ft ++ "_lag" ++ toString l) ∈ (getAttr f attrib).cols) →
      (∀ r ∈ (getAttr f attrib).rows, r.length = (getAttr f attrib).cols.length) →
      isOkResult (lag_features f features lags attrib) = true
      ∧ extendsFrame (getAttr f attrib)
          (getAttr (outState (lag_features f features lags attrib)) attrib))
    ∧ (∀ (f : FFrame) (features : List String) (windows : List Int)
        (aggregations : List String) (lag : Int) (groupers : Option Groupers)
        (min_periods : Int) (momentums percentages : Bool) (attrib : String)
        (aggInterp : String → List Rat → Rat) (ceilPow : Int → Int),
      (momentums = true → aggregations.contains ("mean") = true) →
      (percentages = true → aggregations.contains ("sum") = true) →
      (∀ w ∈ windows, ∀ nm ∈ statWindowNames features aggregations lag
          (grouperNameOf groupers) w, ¬ nm ∈ (getAttr f attrib).cols) →
      (∀ r ∈ (getAttr f attrib).rows, r.length = (getAttr f attrib).cols.length) →
      isOkResult (calc_statistical_features f features windows aggregations lag
          groupers min_periods momentums percentages attrib aggInterp ceilPow) = true
      ∧ extendsFrame (getAttr f attrib)
          (getAttr (outState (calc_statistical_features f features windows aggregations
            lag groupers min_periods momentums percentages attrib aggInterp ceilPow))
            attrib))
    ∧ (∀ (f : FFrame) (features : List String) (windows : List Int) (lag : Int)
        (groupers : Option Groupers) (min_periods : Option Int) (crossovers : Bool)
        (attrib : String) (aggInterp : String → List Rat → Rat) (ceilPow : Int → Int),
      ¬ (crossovers = true ∧ windows.length ≤ 1) →
      (∀ w ∈ windows, ∀ nm ∈ ewmaWindowNames features lag (grouperNameOf groupers) w,
        ¬ nm ∈ (getAttr f attrib).cols) →
      (∀ nm ∈ ewmaCrossNames features lag (grouperNameOf groupers)
          (List.insertionSort (fun a b => a ≤ b) windows),
        ¬ nm ∈ (getAttr f attrib).cols) →
      (∀ r ∈ (getAttr f attrib).rows, r.length = (getAttr f attrib).cols.length) →
      isOkResult (calc_ewma f features windows lag groupers min_periods crossovers
          attrib aggInterp ceilPow) = true
      ∧ extendsFrame (getAttr f attrib)
          (getAttr (outState (calc_ewma f features windows lag groupers min_periods
            crossovers attrib aggInterp ceilPow)) attrib))
    ∧ (∀ (f : FFrame) (feature : Option String) (lag : Int)
        (groupers : Option Groupers) (attrib : String),
      ¬ pctChangeName f.target feature groupers ∈ (getAttr f attrib).cols →
      (∀ r ∈ (getAttr f attrib).rows, r.length = (getAttr f attrib).cols.length) →
      isOkResult (calc_percent_change f feature lag groupers attrib) = true
      ∧ extendsFrame (getAttr f attrib)
          (getAttr (outState (calc_percent_change f feature lag groupers attrib))
            attrib))
    ∧ (∀ (f : FFrame) (features : List String) (windows : List Int) (lag : Int)
        (groupers : Option Groupers) (min_periods threshold : Int) (op attrib : String)
        (aggInterp : String → List Rat → Rat) (ceilPow : Int → Int),
      op ∈ valid_operators →
      (∀ w ∈ windows, ∀ nm ∈ prtWindowNames f.target features w lag
          (grouperNameOf groupers) op threshold, ¬ nm ∈ (getAttr f attrib).cols) →
      (∀ r ∈ (getAttr f attrib).rows, r.length = (getAttr f attrib).cols.length) →
      isOkResult (calc_percent_relative_to_threshold f features windows lag groupers
          min_periods threshold op attrib aggInterp ceilPow) = true
      ∧ extendsFrame (getAttr f attrib)
          (getAttr (outState (calc_percent_relative_to_threshold f features windows
            lag groupers min_periods threshold op attrib aggInterp ceilPow)) attrib)) := by
  refine ⟨?_, ?_, ?_, ?_, ?_, ?_, ?_, ?_⟩
  · -- join_demographics
    intro f joiner year categories level attrib demo hwf
    constructor
    · rfl
    · simp only [join_demographics, outState, getAttr_setAttr]
      rw [getAttr_ite_fl]
      constructor
      · exact ⟨demo.cols, rfl⟩
      · intro r' hr'
        simp only [DF.mergeLR] at hr'
        rcases List.mem_flatMap.mp hr' with ⟨lr, hlr, hin⟩
        rcases List.mem_map.mp hin with ⟨rr, _, heq⟩
        refine ⟨lr, hlr, ?_⟩
        rw [← heq, ← hwf lr hlr]
        exact take_append_exact lr rr
  · -- calc_days_since_release
    exact days_frame_effect
  · -- calc_datetime_features
    intro f dl attrib dtOp hvalid hfr hwf
    have hassert : assert_features_in_list dl datetime_ops_keys
        ("Didn't recognize the following feature requests") = Except.ok () := by
      unfold assert_features_in_list
      rw [if_pos hvalid]
    constructor
    · simp only [calc_datetime_features, hassert, isOkResult]
    · simp only [calc_datetime_features, hassert, outState, getAttr_setAttr]
      refine foldl_extends_of_step (getAttr f attrib) _
        (fun ft => ¬ ft ∈ (getAttr f attrib).cols) ?_ dl _ ?_ hfr
      · intro acc ft hacc hft
        exact setCol_extendsFrame hwf hacc hft _
      · rw [getAttr_ite_fl]
        exact extendsFrame_refl _ hwf
  · -- lag_features
    intro f features lags attrib hlags hfr hwf
    have hc : lags.filter (fun l => l < 1) = [] :=
      List.filter_eq_nil_iff.mpr (fun a ha => by
        simpa using not_lt.mpr (hlags a ha))
    constructor
    · simp only [lag_features]
      rw [if_neg (not_not_intro hc)]
      rfl
    · simp only [lag_features]
      rw [if_neg (not_not_intro hc)]
      simp only [outState]
      refine foldl_acc_extends (getAttr f attrib) (fun st : FFrame => getAttr st attrib)
        _ (fun l : Int => ∀ ft ∈ features,
            ¬ (ft ++ "_lag" ++ toString l) ∈ (getAttr f attrib).cols)
        ?_ lags _ ?_ hfr
      · intro st l hst hl
        exact lagStep_extendsFrame _ _ _ _ _ st l hwf hst hl
      · show extendsFrame (getAttr f attrib) (getAttr _ attrib)
        rw [getAttr_ite_fl]
        exact extendsFrame_refl _ hwf
  · -- calc_statistical_features
    intro f features windows aggregations lag groupers min_periods momentums
      percentages attrib aggInterp ceilPow hmom hperc hfr hwf
    cases groupers with
    | none =>
        simp only [grouperNameOf] at hfr
        simp only [calc_statistical_features]
        refine statFold_result aggInterp features aggregations lag min_periods
          momentums percentages attrib none _ _ _ ceilPow windows _ hwf hmom hperc
          ?_ hfr
        rw [getAttr_ite_fl]
        exact extendsFrame_refl _ hwf
    | some g =>
        simp only [grouperNameOf] at hfr
        simp only [calc_statistical_features]
        refine statFold_result aggInterp features aggregations lag min_periods
          momentums percentages attrib (some g.name) _ _ _ ceilPow windows _ hwf hmom
          hperc ?_ hfr
        rw [getAttr_ite_fl]
        exact extendsFrame_refl _ hwf
  · -- calc_ewma
    intro f features windows lag groupers min_periods crossovers attrib aggInterp
      ceilPow hnc hf1 hf2 hwf
    constructor
    · simp only [calc_ewma]
      rw [if_neg hnc]
      rfl
    · simp only [calc_ewma]
      rw [if_neg hnc]
      simp only [outState]
      cases groupers with
      | none =>
          simp only [grouperNameOf] at hf1 hf2
          refine ewma_block_extends features lag min_periods attrib none _ _ _
            ceilPow crossovers _ _ hwf ?_ ?_ hf2
          · rw [getAttr_ite_fl]
            exact extendsFrame_refl _ hwf
          · intro w hw
            exact hf1 w
              ((List.perm_insertionSort (fun a b : Int => a ≤ b) windows).mem_iff.mp hw)
      | some g =>
          simp only [grouperNameOf] at hf1 hf2
          refine ewma_block_extends features lag min_periods attrib (some g.name) _ _
            _ ceilPow crossovers _ _ hwf ?_ ?_ hf2
          · rw [getAttr_ite_fl]
            exact extendsFrame_refl _ hwf
          · intro w hw
            exact hf1 w
              ((List.perm_insertionSort (fun a b : Int => a ≤ b) windows).mem_iff.mp hw)
  · -- calc_percent_change
    intro f feature lag groupers attrib hn hwf
    constructor
    · rfl
    · cases feature with
      | none =>
          cases groupers with
          | none =>
              simp only [calc_percent_change, outState, getAttr_setAttr,
                _calc_percent_change]
              refine setCol_extendsFrame hwf ?_ ?_ _
              · rw [getAttr_ite_fl]
                exact extendsFrame_refl _ hwf
              · rw [target_ite_fl]
                simpa [pctChangeName] using hn
          | some g =>
              simp only [calc_percent_change, outState, getAttr_setAttr,
                _calc_percent_change]
              refine setCol_extendsFrame hwf ?_ ?_ _
              · rw [getAttr_ite_fl]
                exact extendsFrame_refl _ hwf
              · rw [target_ite_fl]
                simpa [pctChangeName] using hn
      | some ft =>
          cases groupers with
          | none =>
              simp only [calc_percent_change, outState, getAttr_setAttr,
                _calc_percent_change]
              refine setCol_extendsFrame hwf ?_ ?_ _
              · rw [getAttr_ite_fl]
                exact extendsFrame_refl _ hwf
              · simpa [pctChangeName] using hn
          | some g =>
              simp only [calc_percent_change, outState, getAttr_setAttr,
                _calc_percent_change]
              refine setCol_extendsFrame hwf ?_ ?_ _
              · rw [getAttr_ite_fl]
                exact extendsFrame_refl _ hwf
              · simpa [pctChangeName] using hn
  · -- calc_percent_relative_to_threshold
    intro f features windows lag groupers min_periods threshold op attrib aggInterp
      ceilPow hop hfr hwf
    cases hl : operator_dict.lookup op with
    | none => exact absurd hop ((operator_dict_lookup_none_iff op).mp hl)
    | some cmp =>
        constructor
        · simp only [calc_percent_relative_to_threshold]
          rw [hl]
          rfl
        · simp only [calc_percent_relative_to_threshold]
          rw [hl]
          simp only [outState]
          rw [target_ite_fl]
          cases groupers with
          | none =>
              simp only [prtWindowNames, grouperNameOf] at hfr
              refine prt_fold_extends _ lag min_periods threshold cmp attrib none _ _
                ceilPow _ windows _ hwf ?_ hfr
              show extendsFrame (getAttr f attrib)
                (getAttr (if attrib = "sample" then { f with function_list :=
                  f.function_list ++ [ReplayEntry.calc_percent_relative_to_threshold
                    features windows lag none min_periods threshold op] } else f) attrib)
              rw [getAttr_ite_fl]
              exact extendsFrame_refl _ hwf
          | some g =>
              simp only [prtWindowNames, grouperNameOf] at hfr
              refine prt_fold_extends _ lag min_periods threshold cmp attrib
                (some g.name) _ _ ceilPow _ windows _ hwf ?_ hfr
              show extendsFrame (getAttr f attrib)
                (getAttr (if attrib = "sample" then { f with function_list :=
                  f.function_list ++ [ReplayEntry.calc_percent_relative_to_threshold
                    features windows lag (some g) min_periods threshold op] } else f)
                  attrib)
              rw [getAttr_ite_fl]
              exact extendsFrame_refl _ hwf

/-- Witness for C2's amended theorem on a concrete frame: the
calc_days_since_release, calc_datetime_features and calc_percent_change
clauses applied at concrete inputs. -/
theorem c2_feature_transforms_frame_effect_witness :
    (¬ ("first_purchase_date") ∈ (getAttr exFrame ("sample")).cols)
    ∧ (¬ ("days_since_release") ∈ (getAttr exFrame ("sample")).cols)
    ∧ (¬ ("first_purchase_date") ∈ exFrame.hierarchy)
    ∧ (∀ r ∈ (getAttr exFrame ("sample")).rows,
        r.length = (getAttr exFrame ("sample")).cols.length)
    ∧ (isOkResult (calc_days_since_release exFrame true ("sample")) = true
       ∧ (getAttr (outState (calc_days_since_release exFrame true ("sample")))
            ("sample")).cols
           = (getAttr exFrame ("sample")).cols ++ [("days_since_release")]
       ∧ ∀ r' ∈ (getAttr (outState (calc_days_since_release exFrame true ("sample")))
            ("sample")).rows,
           ∃ r ∈ (getAttr exFrame ("sample")).rows,
             r'.take (getAttr exFrame ("sample")).cols.length = r)
    ∧ ((["day"].all (fun ft => datetime_ops_keys.contains ft)) = true)
    ∧ (∀ ft ∈ (["day"] : List String), ¬ ft ∈ (getAttr exFrame ("sample")).cols)
    ∧ (isOkResult (calc_datetime_features exFrame ["day"] ("sample")
          (fun _ v => v)) = true
       ∧ extendsFrame (getAttr exFrame ("sample"))
           (getAttr (outState (calc_datetime_features exFrame ["day"] ("sample")
             (fun _ v => v))) ("sample")))
    ∧ (¬ pctChangeName exFrame.target none none ∈ (getAttr exFrame ("sample")).cols)
    ∧ (isOkResult (calc_percent_change exFrame none 1 none ("sample")) = true
       ∧ extendsFrame (getAttr exFrame ("sample"))
           (getAttr (outState (calc_percent_change exFrame none 1 none ("sample")))
             ("sample"))) :=
  ⟨by decide, by decide, by decide, by decide,
   c2_feature_transforms_frame_effect.2.1 exFrame true ("sample")
     (by decide) (by decide) (by decide) (by decide),
   by decide, by decide,
   c2_feature_transforms_frame_effect.2.2.1 exFrame ["day"] ("sample") (fun _ v => v)
     (by decide) (by decide) (by decide),
   by decide,
   c2_feature_transforms_frame_effect.2.2.2.2.2.2.1 exFrame none 1 none ("sample")
     (by decide) (by decide)⟩

/-- Witness for C9 at three concrete failing calls. -/
theorem c9_validation_after_replay_append_witness :
    (∃ l ∈ ([0] : List Int), l < 1)
    ∧ lag_features exFrame ["sales"] [0] ("sample")
        = Except.error (PyErr.assertionError
            ("Please ensure all lags are greater than 0 to avoid leaking data."),
            { exFrame with function_list := exFrame.function_list
                ++ [ReplayEntry.lag_features ["sales"] [0]] })
    ∧ ¬ ("bogus" : String) ∈ valid_operators
    ∧ calc_percent_relative_to_threshold exFrame [] [3] 1 none 1 0 ("bogus")
          ("sample") (fun _ xs => xs.sum) (fun w => w)
        = Except.error (PyErr.assertionError
            ("Operator should be one of dict_keys(['greater', 'less', 'equal', 'not equal'])"),
            { exFrame with function_list := exFrame.function_list
                ++ [ReplayEntry.calc_percent_relative_to_threshold [] [3] 1 none 1 0 ("bogus")] })
    ∧ 0 < ((nullFrame.sample.getCol nullFrame.target).filter Val.isNull).length
    ∧ calc_prophet_predictions nullFrame none none [] [] id (fun _ t => t)
        = Except.error (PyErr.valueError
            ("DataFrame's target column contains nulls values. Please fix before building Prophet forecasts."),
            { nullFrame with ensemble_list := nullFrame.ensemble_list
                ++ [ReplayEntry.calc_prophet_predictions [] []] }) :=
  ⟨by decide,
   c9_validation_after_replay_append.1 exFrame ["sales"] [0] (by decide),
   by decide,
   c9_validation_after_replay_append.2.1 exFrame [] [3] 1 none 1 0 ("bogus")
     (fun _ xs => xs.sum) (fun w => w) (by decide),
   by decide,
   c9_validation_after_replay_append.2.2 nullFrame none [] [] id (fun _ t => t)
     (by decide)⟩

/-- C8: get_sorted_shap_values returns the two-column (feature, value) table
whose value column is the per-feature means of the absolute SHAP values
sorted nonincreasing, and in every row the value is the mean absolute SHAP
value of the feature named in that row: the two independently argsorted
columns stay aligned because the absolute value taken before the first
argsort is the identity on the already-nonnegative means, so both columns
are indexed by the same permutation. -/
theorem c8_sorted_shap_values (cols : List String) (sv : List (List Rat)) :
    List.Sorted (fun a b => a ≥ b) ((get_sorted_shap_values cols sv).map Prod.snd)
    ∧ ∀ pr ∈ get_sorted_shap_values cols sv,
        ∃ j, j < cols.length
          ∧ pr.1 = cols.getD j ""
          ∧ pr.2 = (meanAbsShap cols.length sv).getD j 0 := by
  constructor
  · rw [get_sorted_shap_values_eq, List.map_map]
    have hs := argsort_sorted (meanAbsShap cols.length sv)
    unfold List.Sorted at hs ⊢
    rw [List.pairwise_map, List.pairwise_reverse]
    exact hs.imp (fun h => h)
  · intro pr hpr
    rw [get_sorted_shap_values_eq] at hpr
    rcases List.mem_map.mp hpr with ⟨j, hj, rfl⟩
    have hjlt : j < cols.length := by
      have := mem_argsort_lt (List.mem_reverse.mp hj)
      rwa [meanAbsShap_length] at this
    exact ⟨j, hjlt, rfl, rfl⟩

theorem shapExampleEval :
    get_sorted_shap_values ["x", "y", "z"] [[1, -3, 2], [-1, 3, 0]]
      = [("y", 3), ("z", 1), ("x", 1)] := by
  norm_num [get_sorted_shap_values, meanAbsShap, meanRat, argsort,
    List.insertionSort, List.orderedInsert, List.range_succ]

/-- Witness for C8 on a concrete three-column SHAP matrix. -/
theorem c8_sorted_shap_values_witness :
    (("y", (3 : Rat)) ∈ get_sorted_shap_values ["x", "y", "z"] [[1, -3, 2], [-1, 3, 0]])
    ∧ ∃ j, j < (["x", "y", "z"] : List String).length
        ∧ ("y", (3 : Rat)).1 = (["x", "y", "z"] : List String).getD j ""
        ∧ ("y", (3 : Rat)).2
            = (meanAbsShap (["x", "y", "z"] : List String).length
                [[1, -3, 2], [-1, 3, 0]]).getD j 0 :=
  ⟨by rw [shapExampleEval]; decide,
   (c8_sorted_shap_values ["x", "y", "z"] [[1, -3, 2], [-1, 3, 0]]).2
     ("y", (3 : Rat)) (by rw [shapExampleEval]; decide)⟩

/-- Witness for C7 at a concrete one-lag call. -/
theorem c7_lag_features_assertion_witness :
    (∀ l ∈ ([1] : List Int), 1 ≤ l)
    ∧ ("sales" : String) ∈ ["sales"]
    ∧ (1 : Int) ∈ ([1] : List Int)
    ∧ ("sales" ++ "_lag" ++ toString (1 : Int))
        ∈ (getAttr (outState (lag_features exFrame ["sales"] [1] ("sample"))) ("sample")).cols :=
  ⟨by decide, by decide, by decide,
   c7_lag_features_assertion.2 exFrame ["sales"] [1] ("sample") (by decide)
     ("sales") (by decide) 1 (by decide)⟩

end FF
